import Mathlib

/-!
Shallow embedding of the Bandersnatch chess engine core
(src/bandersnatch-wasm/src/defs.rs and src/bandersnatch-wasm/src/lib.rs)
and proofs about the claims of the specification.

Modelling conventions:
* `u8`/`usize`/`u64` values are `Nat`, `i32` values are `Int`.  The only
  u64 operation the engine performs on hashes is XOR, which never leaves
  the range of 64-bit values, so no `% 2^64` reduction is needed.
* Rust `Vec` is `List`; `Vec::push` appends at the tail; indexing is
  `List.getD`/`List.set` (all theorem hypotheses keep indices in range,
  matching the places where the Rust code would otherwise panic).
* The Zobrist table is drawn from the host RNG in `Engine::new`; the RNG
  is an external collaborator, so the table is a parameter of the model.
* The host wall clock `now()` (external, §6 of the spec) is modelled as a
  stream `now_values : Nat → Nat` consumed one value per call, with
  `now_index` counting the calls made so far.
* The evaluator uses `f32` in the source; it is modelled over `ℚ`.  Every
  theorem that evaluates it does so at inputs where each floating-point
  operation of the source is exact, so the rational model agrees with the
  `f32` computation there.
-/

set_option maxRecDepth 4000

namespace Bandersnatch

/-- Piece codes exactly as in `defs.rs` (`repr(u8)`). -/
abbrev Piece := Nat

def Piece.Empty : Piece := 0
def Piece.King_B : Piece := 1
def Piece.Queen_B : Piece := 2
def Piece.Rook_B : Piece := 3
def Piece.Bishop_B : Piece := 4
def Piece.Knight_B : Piece := 5
def Piece.Pawn_B : Piece := 6
def Piece.King_W : Piece := 7
def Piece.Queen_W : Piece := 8
def Piece.Rook_W : Piece := 9
def Piece.Bishop_W : Piece := 10
def Piece.Knight_W : Piece := 11
def Piece.Pawn_W : Piece := 12

/-- `Piece::from_num` of `defs.rs`. -/
def Piece.from_num (num : Int) : Piece :=
  if 1 ≤ num ∧ num ≤ 12 then num.toNat else Piece.Empty

/-- Piece values (`Value` in `defs.rs`). -/
def Value.PAWN : Int := 100
def Value.KNIGHT : Int := 300
def Value.BISHOP : Int := 300
def Value.ROOK : Int := 500
def Value.QUEEN : Int := 900

/-- Castle-status bitmask (`CastleStatus` in `defs.rs`). -/
def CastleStatus.WHITE_KING : Nat := 1
def CastleStatus.WHITE_QUEEN : Nat := 2
def CastleStatus.BLACK_KING : Nat := 4
def CastleStatus.BLACK_QUEEN : Nat := 8

/-- `!(status & flag).is_empty()` of the bitflags crate. -/
def castleHas (s f : Nat) : Bool := (s &&& f) != 0

/-- `status &= !flag`: bitflags complements within the defined bits (0xF). -/
def castleClear (s f : Nat) : Nat := s &&& (15 ^^^ f)

/-- `BoardDelta` of `defs.rs`: `index = -1` marks a promotion-created piece,
`target = -1` a removed piece. -/
structure BoardDelta where
  index : Int
  piece : Piece
  target : Int
deriving DecidableEq, Repr

/-- `MoveInfo` of `defs.rs` (`index` is the destination, `data` the promotion). -/
structure MoveInfo where
  index : Nat
  data : Piece
deriving DecidableEq, Repr

/-- `EvalMove` of `defs.rs`.  `from`/`to` are Lean keywords, hence the
`from_sq`/`to_sq` field names. -/
structure EvalMove where
  from_sq : Int
  to_sq : Int
  data : Int
  score : Int
deriving DecidableEq, Repr

instance : Inhabited EvalMove := ⟨⟨0, 0, 0, 0⟩⟩

/-- `Default::default()` for `EvalMove`. -/
def EvalMove.default : EvalMove := ⟨0, 0, 0, 0⟩

/-- `SavedEvalType` of `defs.rs`. -/
inductive SavedEvalType where
  | Exact
  | Alpha
  | Beta
deriving DecidableEq, Repr

/-- `EvaluationData` of `defs.rs`. -/
structure EvaluationData where
  total_moves : Int
  eval : Int
  best_move : EvalMove
  depth : Int
  saved_type : SavedEvalType
deriving DecidableEq, Repr

/-- `DebugMoveOutput` of `defs.rs`. -/
structure DebugMoveOutput where
  mov : EvalMove
  piece : Int
  capture : Int
deriving DecidableEq, Repr

/-- `PAWN_SQUARE_TABLE` of `defs.rs`. -/
def PAWN_SQUARE_TABLE : List Int :=
  [0, 0, 0, 0, 0, 0, 0, 0,
   50, 50, 50, 50, 50, 50, 50, 50,
   10, 10, 20, 30, 30, 20, 10, 10,
   5, 5, 10, 25, 25, 10, 5, 5,
   0, 0, 0, 20, 20, 0, 0, 0,
   5, -5, -10, 0, 0, -10, -5, 5,
   5, 10, 10, -20, -20, 10, 10, 5,
   0, 0, 0, 0, 0, 0, 0, 0]

/-- `KNIGHT_SQUARE_TABLE` of `defs.rs`. -/
def KNIGHT_SQUARE_TABLE : List Int :=
  [-50, -40, -30, -30, -30, -30, -40, -50,
   -40, -20, 0, 0, 0, 0, -20, -40,
   -30, 0, 10, 15, 15, 10, 0, -30,
   -30, 5, 15, 20, 20, 15, 5, -30,
   -30, 0, 15, 20, 20, 15, 0, -30,
   -30, 5, 10, 15, 15, 10, 5, -30,
   -40, -20, 0, 5, 5, 0, -20, -40,
   -50, -40, -30, -30, -30, -30, -40, -50]

/-- `BISHOP_SQUARE_TABLE` of `defs.rs`. -/
def BISHOP_SQUARE_TABLE : List Int :=
  [-20, -10, -10, -10, -10, -10, -10, -20,
   -10, 0, 0, 0, 0, 0, 0, -10,
   -10, 0, 5, 10, 10, 5, 0, -10,
   -10, 5, 5, 10, 10, 5, 5, -10,
   -10, 0, 10, 10, 10, 10, 0, -10,
   -10, 10, 10, 10, 10, 10, 10, -10,
   -10, 5, 0, 0, 0, 0, 5, -10,
   -20, -10, -10, -10, -10, -10, -10, -20]

/-- `ROOK_SQUARE_TABLE` of `defs.rs`. -/
def ROOK_SQUARE_TABLE : List Int :=
  [0, 0, 0, 0, 0, 0, 0, 0,
   5, 10, 10, 10, 10, 10, 10, 5,
   -5, 0, 0, 0, 0, 0, 0, -5,
   -5, 0, 0, 0, 0, 0, 0, -5,
   -5, 0, 0, 0, 0, 0, 0, -5,
   -5, 0, 0, 0, 0, 0, 0, -5,
   -5, 0, 0, 0, 0, 0, 0, -5,
   0, 0, 0, 5, 5, 0, 0, 0]

/-- `QUEEN_SQUARE_TABLE` of `defs.rs`. -/
def QUEEN_SQUARE_TABLE : List Int :=
  [-20, -10, -10, -5, -5, -10, -10, -20,
   -10, 0, 0, 0, 0, 0, 0, -10,
   -10, 0, 5, 5, 5, 5, 0, -10,
   -5, 0, 5, 5, 5, 5, 0, -5,
   0, 0, 5, 5, 5, 5, 0, -5,
   -10, 5, 5, 5, 5, 5, 0, -10,
   -10, 0, 5, 0, 0, 0, 0, -10,
   -20, -10, -10, -5, -5, -10, -10, -20]

/-- `KING_MIDDLE_GAME_SQUARE_TABLE` of `defs.rs`. -/
def KING_MIDDLE_GAME_SQUARE_TABLE : List Int :=
  [-30, -40, -40, -50, -50, -40, -40, -30,
   -30, -40, -40, -50, -50, -40, -40, -30,
   -30, -40, -40, -50, -50, -40, -40, -30,
   -30, -40, -40, -50, -50, -40, -40, -30,
   -20, -30, -30, -40, -40, -30, -30, -20,
   -10, -20, -20, -20, -20, -20, -20, -10,
   20, 20, 0, 0, 0, 0, 20, 20,
   20, 30, 10, 0, 0, 10, 30, 20]

/-- The engine state (`struct Engine` in `lib.rs`). -/
structure Engine where
  fen_to_piece_map : List (String × Piece)
  /-- Modelled from the spec: the Zobrist table entries are drawn from the
  host RNG (an external collaborator) in `Engine::new`; the filled table is a
  parameter of the model.  Row 64 holds the castle words, row 65 the side
  word, row 66 the en-passant words (matching the flat indices of the
  source's `Vec<Vec<u64>>`). -/
  zobrist_hash_table : Nat → Nat → Nat
  board : List Piece
  board_hash : Nat
  white_turn : Bool
  castle_status : Nat
  en_passant_square : Int
  move_count : Int
  move_rep_count : Int
  board_deltas : List BoardDelta
  piece_locations : List (List Nat)
  pinned_pieces : List Nat
  repetition_history : List Nat
  saved_evaluations : List (Nat × EvaluationData)
  castled_this_turn : Bool
  piece_captured_this_turn : Bool
  in_check : Bool
  all_valid_moves : List EvalMove
  best_move : EvalMove
  best_move_this_iteration : EvalMove
  search_start_time : Nat
  search_max_time : Nat
  time_taken_last_turn : Nat
  depth_searched_last_turn : Int
  moves_found_this_turn : List DebugMoveOutput
  moves_found_this_iteration : List DebugMoveOutput
  /-- Modelled from the spec: the host-provided wall clock `now()`; the n-th
  call returns `now_values n`. -/
  now_values : Nat → Nat
  /-- Number of `now()` calls made so far (model bookkeeping for the clock). -/
  now_index : Nat

/-- One `now("")` call: the next clock value, and the state with the call
counted. -/
def Engine.takeNow (e : Engine) : Nat × Engine :=
  (e.now_values e.now_index, { e with now_index := e.now_index + 1 })

/-- `Engine::new` of `lib.rs`.  The RNG-filled Zobrist table and the host
clock are the external inputs of the construction. -/
def Engine.new (zobrist : Nat → Nat → Nat) (clock : Nat → Nat) : Engine where
  fen_to_piece_map :=
    [("K", Piece.King_W), ("Q", Piece.Queen_W), ("R", Piece.Rook_W),
     ("B", Piece.Bishop_W), ("N", Piece.Knight_W), ("P", Piece.Pawn_W),
     ("k", Piece.King_B), ("q", Piece.Queen_B), ("r", Piece.Rook_B),
     ("b", Piece.Bishop_B), ("n", Piece.Knight_B), ("p", Piece.Pawn_B)]
  zobrist_hash_table := zobrist
  board := List.replicate 64 Piece.Empty
  board_hash := 0
  white_turn := true
  castle_status := 0
  en_passant_square := 0
  move_count := 0
  move_rep_count := 0
  board_deltas := []
  piece_locations := List.replicate 15 []
  pinned_pieces := []
  repetition_history := []
  saved_evaluations := []
  castled_this_turn := false
  piece_captured_this_turn := false
  in_check := false
  all_valid_moves := []
  best_move := EvalMove.default
  best_move_this_iteration := EvalMove.default
  search_start_time := 0
  search_max_time := 3000
  time_taken_last_turn := 0
  depth_searched_last_turn := 0
  moves_found_this_turn := []
  moves_found_this_iteration := []
  now_values := clock
  now_index := 0

/-- Push a square onto a piece's location list (`piece_locations[p].push(i)`). -/
def locPush (locs : List (List Nat)) (piece : Piece) (idx : Nat) : List (List Nat) :=
  locs.set piece (locs.getD piece [] ++ [idx])

/-- The list-level content of `Engine::remove_piece`: find the first
occurrence of `index` in the piece's location list, overwrite it with the
last element and pop. -/
def removeLoc (locs : List (List Nat)) (piece : Piece) (index : Nat) :
    List (List Nat) :=
  let l := locs.getD piece []
  match l.findIdx? (· == index) with
  | some i => locs.set piece ((l.set i (l.getLastD 0)).dropLast)
  | none => locs

/-- The list-level content of `Engine::move_piece`: overwrite the first
occurrence of `index` with `new_location`. -/
def moveLoc (locs : List (List Nat)) (piece : Piece) (index new_location : Nat) :
    List (List Nat) :=
  let l := locs.getD piece []
  match l.findIdx? (· == index) with
  | some i => locs.set piece (l.set i new_location)
  | none => locs

/-- `Engine::remove_piece`. -/
def Engine.remove_piece (e : Engine) (piece : Piece) (index : Nat) : Engine :=
  { e with piece_locations := removeLoc e.piece_locations piece index }

/-- `Engine::move_piece`. -/
def Engine.move_piece (e : Engine) (piece : Piece) (index new_location : Nat) :
    Engine :=
  { e with piece_locations := moveLoc e.piece_locations piece index new_location }

/-- `Engine::notation_to_index` (the failed rank parse defaults to 0; the
callers only pass ASCII ranks `1..8` and files `a..h`). -/
def Engine.notation_to_index (rank file : Char) : Nat :=
  let y : Nat := if rank.isDigit then rank.toNat - 48 else 0
  let y := 8 - y
  let x : Nat := file.toNat - 97
  y * 8 + x

/-- `Engine::hash_board`: XOR of the (square, piece) words of the non-empty
squares, the castle words of the live rights, the side word when white is to
move, and the en-passant word when an en-passant square is set. -/
def Engine.hash_board (e : Engine) : Nat :=
  let h := (List.range e.board.length).foldl
    (fun h i =>
      if e.board.getD i Piece.Empty ≠ Piece.Empty then
        h ^^^ e.zobrist_hash_table i (e.board.getD i Piece.Empty - 1)
      else h) 0
  let h := if castleHas e.castle_status CastleStatus.WHITE_KING then
    h ^^^ e.zobrist_hash_table 64 0 else h
  let h := if castleHas e.castle_status CastleStatus.WHITE_QUEEN then
    h ^^^ e.zobrist_hash_table 64 1 else h
  let h := if castleHas e.castle_status CastleStatus.BLACK_KING then
    h ^^^ e.zobrist_hash_table 64 2 else h
  let h := if castleHas e.castle_status CastleStatus.BLACK_QUEEN then
    h ^^^ e.zobrist_hash_table 64 3 else h
  let h := if e.white_turn then h ^^^ e.zobrist_hash_table 65 0 else h
  let h := if e.en_passant_square ≠ -1 then
    h ^^^ e.zobrist_hash_table 66 e.en_passant_square.toNat else h
  h

/-- `Engine::piece_count`: total length of location lists 1..14 (the loop
starts at 1, skipping the `Empty` list). -/
def Engine.piece_count (e : Engine) : Int :=
  ((e.piece_locations.drop 1).foldl (fun c l => c + l.length) 0 : Nat)

/-- `Engine::check_for_draw`.  Note the order of the source: the fifty-move
test runs before the black-turn early return; the source's threefold loop
returns true as soon as the running count reaches 3, which is `3 ≤ countP`. -/
def Engine.check_for_draw (e : Engine) : Bool :=
  if 50 ≤ e.move_rep_count then true
  else if !e.white_turn then false
  else if e.piece_count = 2 then true
  else if 3 ≤ e.repetition_history.countP (· == e.board_hash) then true
  else false

/-- The loop of `Engine::trace_valid_squares`.  The source walks `current` as
a `usize` and exits when it leaves `0..board.len()`; a negative step wraps to
a huge value there, which the `< len` test also catches, so `current` is an
`Int` here and the loop exits when it leaves `[0, len)`.  Every source call
site reaches at most 64 iterations (the walk stays on the board until a
boundary break), so a fuel of 100 never runs out on them. -/
def traceLoop (board : List Piece) (index : Nat) (slope_x slope_y : Int)
    (white empty_only update_pins : Bool) :
    Nat → Int → Int → Int → Bool → Nat → List Nat → List Nat →
    List Nat × List Nat
  | 0, _x, _y, _current, _obstructed, _oi, pins, arr => (pins, arr)
  | fuel + 1, x, y, current, obstructed, obstructed_index, pins, arr =>
    if 0 ≤ current ∧ current < (board.length : Int) then
      let ci := current.toNat
      let b := board.getD ci Piece.Empty
      let step := fun (obs : Bool) (oi : Nat) (pins : List Nat) (arr : List Nat) =>
        if (slope_x = -1 ∧ x = 0) ∨ (slope_x = 1 ∧ x = 7) ∨
            (slope_y = -1 ∧ y = 0) ∨ (slope_y = 1 ∧ y = 7) then
          (pins, arr)
        else
          traceLoop board index slope_x slope_y white empty_only update_pins
            fuel (x + slope_x) (y + slope_y) (current + slope_x + slope_y * 8)
            obs oi pins arr
      if ci ≠ index then
        if !obstructed then
          if empty_only then
            if b = Piece.Empty then step false ci pins (arr ++ [ci])
            else (pins, arr)
          else
            let arr' := if b = Piece.Empty ∨ (white ∧ b < 7) ∨ (!white ∧ 7 ≤ b) then
              arr ++ [ci] else arr
            step (b != Piece.Empty) ci pins arr'
        else if update_pins then
          if b = Piece.King_W ∨ b = Piece.King_B ∨ b = Piece.Empty then
            if white ∧ b = Piece.King_B ∧ b < 7 then (pins ++ [obstructed_index], arr)
            else if !white ∧ b = Piece.King_W ∧ 7 ≤ b then (pins ++ [obstructed_index], arr)
            else step obstructed obstructed_index pins arr
          else (pins, arr)
        else (pins, arr)
      else step obstructed obstructed_index pins arr
    else (pins, arr)

/-- `Engine::trace_valid_squares`.  `pins` stands for `self.pinned_pieces`
(the only field the source mutates here); the pair returned is
(`pinned_pieces`, `in_array`) after the call. -/
def Engine.trace_valid_squares (e : Engine) (index : Nat) (slope_x slope_y : Int)
    (white empty_only update_pins : Bool) (x y : Int) (pins arr : List Nat) :
    List Nat × List Nat :=
  traceLoop e.board index slope_x slope_y white empty_only update_pins 100
    x y (index : Int) false 0 pins arr

/-- `Engine::get_valid_squares`.  Pure form of the source: the pair returned
is (`pinned_pieces`, `in_array`).  `y = (index as f32 * 0.125) as i32` is
exactly `index / 8` for board indices. -/
def Engine.get_valid_squares (e : Engine) (index : Nat) (piece : Piece)
    (attack_only update_pins : Bool) (pins arr : List Nat) :
    List Nat × List Nat :=
  let x : Int := (index : Int) % 8
  let y : Int := (index : Int) / 8
  let is_white := decide (7 ≤ piece)
  if piece = Piece.Rook_W ∨ piece = Piece.Rook_B then
    let (pins, arr) := e.trace_valid_squares index 1 0 is_white false update_pins x y pins arr
    let (pins, arr) := e.trace_valid_squares index (-1) 0 is_white false update_pins x y pins arr
    let (pins, arr) := e.trace_valid_squares index 0 1 is_white false update_pins x y pins arr
    e.trace_valid_squares index 0 (-1) is_white false update_pins x y pins arr
  else if piece = Piece.Queen_W ∨ piece = Piece.Queen_B then
    let (pins, arr) := e.trace_valid_squares index 1 0 is_white false update_pins x y pins arr
    let (pins, arr) := e.trace_valid_squares index (-1) 0 is_white false update_pins x y pins arr
    let (pins, arr) := e.trace_valid_squares index 0 1 is_white false update_pins x y pins arr
    let (pins, arr) := e.trace_valid_squares index 0 (-1) is_white false update_pins x y pins arr
    let (pins, arr) := e.trace_valid_squares index 1 (-1) is_white false update_pins x y pins arr
    let (pins, arr) := e.trace_valid_squares index (-1) (-1) is_white false update_pins x y pins arr
    let (pins, arr) := e.trace_valid_squares index 1 1 is_white false update_pins x y pins arr
    e.trace_valid_squares index (-1) 1 is_white false update_pins x y pins arr
  else if piece = Piece.Bishop_W ∨ piece = Piece.Bishop_B then
    let (pins, arr) := e.trace_valid_squares index 1 (-1) is_white false update_pins x y pins arr
    let (pins, arr) := e.trace_valid_squares index (-1) (-1) is_white false update_pins x y pins arr
    let (pins, arr) := e.trace_valid_squares index 1 1 is_white false update_pins x y pins arr
    e.trace_valid_squares index (-1) 1 is_white false update_pins x y pins arr
  else if piece = Piece.Pawn_W ∨ piece = Piece.Pawn_B then
    let mn : Nat := if is_white then 1 else 7
    let mx : Nat := if is_white then 6 else 12
    let x_min := 1 ≤ x
    let x_max := x < 7
    let start_y : Int := if is_white then 6 else 1
    let to1 : Nat := if is_white then index - 8 else index + 8
    let arr := if ¬attack_only ∧ e.board.getD to1 Piece.Empty = Piece.Empty then
      arr ++ [to1] else arr
    let to2 : Nat := if is_white then index - 16 else index + 16
    let arr := if ¬attack_only ∧ y = start_y ∧
        (e.board.getD to2 Piece.Empty = Piece.Empty ∧
         e.board.getD (if is_white then to2 + 8 else to2 - 8) Piece.Empty = Piece.Empty) then
      arr ++ [to2] else arr
    let to3 : Nat := if is_white then index - 8 + 1 else index + 8 + 1
    let b3 := e.board.getD to3 Piece.Empty
    let arr := if x_max ∧ (((attack_only ∨ b3 ≠ Piece.Empty) ∧
        (b3 = Piece.Empty ∨ (mn ≤ b3 ∧ b3 ≤ mx))) ∨ (to3 : Int) = e.en_passant_square) then
      arr ++ [to3] else arr
    let to4 : Nat := if is_white then index - 8 - 1 else index + 8 - 1
    let b4 := e.board.getD to4 Piece.Empty
    let arr := if x_min ∧ (((attack_only ∨ b4 ≠ Piece.Empty) ∧
        (b4 = Piece.Empty ∨ (mn ≤ b4 ∧ b4 ≤ mx))) ∨ (to4 : Int) = e.en_passant_square) then
      arr ++ [to4] else arr
    (pins, arr)
  else if piece = Piece.King_W ∨ piece = Piece.King_B then
    let mn : Nat := if is_white then 1 else 7
    let mx : Nat := if is_white then 6 else 12
    let x_min := 1 ≤ x
    let x_max := x < 7
    let y_min := 1 ≤ y
    let y_max := y < 7
    let ok := fun (t : Nat) =>
      e.board.getD t Piece.Empty = Piece.Empty ∨
      (mn ≤ e.board.getD t Piece.Empty ∧ e.board.getD t Piece.Empty ≤ mx)
    let arr := if x_min ∧ y_min ∧ ok (index - 9) then arr ++ [index - 9] else arr
    let arr := if y_min ∧ ok (index - 8) then arr ++ [index - 8] else arr
    let arr := if x_max ∧ y_min ∧ ok (index - 7) then arr ++ [index - 7] else arr
    let arr := if x_min ∧ ok (index - 1) then arr ++ [index - 1] else arr
    let arr := if x_max ∧ ok (index + 1) then arr ++ [index + 1] else arr
    let arr := if x_min ∧ y_max ∧ ok (index + 7) then arr ++ [index + 7] else arr
    let arr := if y_max ∧ ok (index + 8) then arr ++ [index + 8] else arr
    let arr := if x_max ∧ y_max ∧ ok (index + 9) then arr ++ [index + 9] else arr
    (pins, arr)
  else if piece = Piece.Knight_W ∨ piece = Piece.Knight_B then
    let mn : Nat := if is_white then 1 else 7
    let mx : Nat := if is_white then 6 else 12
    let ok := fun (t : Nat) =>
      e.board.getD t Piece.Empty = Piece.Empty ∨
      (mn ≤ e.board.getD t Piece.Empty ∧ e.board.getD t Piece.Empty ≤ mx)
    let arr := if 2 ≤ x ∧ 1 ≤ y ∧ ok (index - 10) then arr ++ [index - 10] else arr
    let arr := if 2 ≤ x ∧ y ≤ 6 ∧ ok (index + 6) then arr ++ [index + 6] else arr
    let arr := if x ≤ 5 ∧ y ≤ 6 ∧ ok (index + 10) then arr ++ [index + 10] else arr
    let arr := if x ≤ 5 ∧ 1 ≤ y ∧ ok (index - 6) then arr ++ [index - 6] else arr
    let arr := if 2 ≤ y ∧ 1 ≤ x ∧ ok (index - 17) then arr ++ [index - 17] else arr
    let arr := if 2 ≤ y ∧ x ≤ 6 ∧ ok (index - 15) then arr ++ [index - 15] else arr
    let arr := if y ≤ 5 ∧ x ≤ 6 ∧ ok (index + 17) then arr ++ [index + 17] else arr
    let arr := if y ≤ 5 ∧ 1 ≤ x ∧ ok (index + 15) then arr ++ [index + 15] else arr
    (pins, arr)
  else (pins, arr)

/-- `Engine::get_attacked_squares`: generate the attack map of the pieces of
`white`'s opponent... more precisely, of the side `white`'s enemy as the
source indexes it (piece codes `1..=6` when `white`, `7..=12` otherwise),
skipping any piece standing on `to_index`. -/
def Engine.get_attacked_squares (e : Engine) (white : Bool) (to_index : Int)
    (update_pins : Bool) (pins arr : List Nat) : List Nat × List Nat :=
  let start_index : Nat := if white then 1 else 7
  let end_index : Nat := if white then 6 else 12
  (List.range' start_index (end_index - start_index + 1)).foldl
    (fun acc (i : Nat) =>
      (e.piece_locations.getD i []).foldl
        (fun (acc : List Nat × List Nat) (loc : Nat) =>
          if (loc : Int) = to_index then acc
          else e.get_valid_squares loc (Piece.from_num (i : Int)) true update_pins
            acc.1 acc.2)
        acc)
    (pins, arr)

/-- `Engine::get_valid_castle_squares`. -/
def Engine.get_valid_castle_squares (e : Engine) (attacked_squares : List Nat)
    (arr : List EvalMove) : List EvalMove :=
  if e.white_turn then
    let traced := (e.trace_valid_squares 60 1 0 true true false 4 7 [] []).2
    let arr := if castleHas e.castle_status CastleStatus.WHITE_KING ∧
        e.board.getD 63 Piece.Empty = Piece.Rook_W ∧ traced.length = 2 ∧
        60 ∉ attacked_squares ∧ 61 ∉ attacked_squares ∧ 62 ∉ attacked_squares then
      arr ++ [EvalMove.mk 60 62 (Piece.Empty : Nat) 0] else arr
    let traced := (e.trace_valid_squares 60 (-1) 0 true true false 4 7 [] []).2
    if castleHas e.castle_status CastleStatus.WHITE_QUEEN ∧
        e.board.getD 56 Piece.Empty = Piece.Rook_W ∧ traced.length = 3 ∧
        60 ∉ attacked_squares ∧ 59 ∉ attacked_squares ∧ 58 ∉ attacked_squares then
      arr ++ [EvalMove.mk 60 58 (Piece.Empty : Nat) 0] else arr
  else
    let traced := (e.trace_valid_squares 4 1 0 false true false 4 0 [] []).2
    let arr := if castleHas e.castle_status CastleStatus.BLACK_KING ∧
        e.board.getD 7 Piece.Empty = Piece.Rook_B ∧ traced.length = 2 ∧
        4 ∉ attacked_squares ∧ 5 ∉ attacked_squares ∧ 6 ∉ attacked_squares then
      arr ++ [EvalMove.mk 4 6 (Piece.Empty : Nat) 0] else arr
    let traced := (e.trace_valid_squares 4 (-1) 0 false true false 4 0 [] []).2
    if castleHas e.castle_status CastleStatus.BLACK_QUEEN ∧
        e.board.getD 0 Piece.Empty = Piece.Rook_B ∧ traced.length = 3 ∧
        4 ∉ attacked_squares ∧ 3 ∉ attacked_squares ∧ 2 ∉ attacked_squares then
      arr ++ [EvalMove.mk 4 2 (Piece.Empty : Nat) 0] else arr

/-- `Engine::is_in_check_attacked_squares` (the source indexes `[0]` into the
king's location list; an engine with the king present never panics there). -/
def Engine.is_in_check_attacked_squares (e : Engine) (white : Bool)
    (attacked_squares : List Nat) : Bool :=
  (white && attacked_squares.contains
      ((e.piece_locations.getD Piece.King_W []).getD 0 0)) ||
  (!white && attacked_squares.contains
      ((e.piece_locations.getD Piece.King_B []).getD 0 0))

/-- `Engine::is_in_check` (`update_pins = false`, so `pinned_pieces` is
untouched and discarded). -/
def Engine.is_in_check (e : Engine) (white : Bool) : Bool :=
  e.is_in_check_attacked_squares white
    (e.get_attacked_squares white (-1) false [] []).2

/-- `Engine::get_all_valid_moves`.  Returns the engine with its
`pinned_pieces` as the call leaves them, the (possibly refilled)
`attacked_squares`, and the generated move list. -/
def Engine.get_all_valid_moves (e : Engine) (captures_only : Bool)
    (attacked_squares : List Nat) : Engine × List Nat × List EvalMove :=
  let (e, attacked_squares) :=
    if attacked_squares.length = 0 then
      let cleared := { e with pinned_pieces := ([] : List Nat) }
      let (pins, arr) := cleared.get_attacked_squares cleared.white_turn (-1) true [] []
      ({ cleared with pinned_pieces := pins }, arr)
    else (e, attacked_squares)
  let all_valid : List EvalMove :=
    if ¬captures_only then e.get_valid_castle_squares attacked_squares [] else []
  let in_check := e.is_in_check_attacked_squares e.white_turn attacked_squares
  let start_index : Nat := if e.white_turn then 7 else 1
  let end_index : Nat := if e.white_turn then 12 else 6
  let all_valid := (List.range' start_index (end_index - start_index + 1)).foldl
    (fun (all_valid : List EvalMove) (i : Nat) =>
      let piece : Piece := Piece.from_num (i : Int)
      (e.piece_locations.getD i []).foldl
        (fun (all_valid : List EvalMove) (location : Nat) =>
          let local_valid := (e.get_valid_squares location piece captures_only false [] []).2
          let is_pinned := e.pinned_pieces.contains location
          local_valid.foldl
            (fun (all_valid : List EvalMove) (checking_index : Nat) =>
              if captures_only ∧ e.board.getD checking_index Piece.Empty = Piece.Empty then
                all_valid
              else
                let keep : Bool :=
                  if in_check ∨ is_pinned = true ∨ piece = Piece.King_W ∨
                      piece = Piece.King_B then
                    let sim := { e with board :=
                      (e.board.set checking_index piece).set location Piece.Empty }
                    let local_attacked :=
                      (sim.get_attacked_squares e.white_turn (checking_index : Int)
                        false [] []).2
                    if piece = Piece.King_W ∨ piece = Piece.King_B then
                      !(local_attacked.contains checking_index)
                    else
                      !(e.is_in_check_attacked_squares e.white_turn local_attacked)
                  else true
                if keep then
                  let y := checking_index / 8
                  if piece = Piece.Pawn_W ∧ y = 0 then
                    all_valid ++
                      [EvalMove.mk (location : Int) (checking_index : Int) (Piece.Queen_W : Nat) 0,
                       EvalMove.mk (location : Int) (checking_index : Int) (Piece.Rook_W : Nat) 0,
                       EvalMove.mk (location : Int) (checking_index : Int) (Piece.Bishop_W : Nat) 0,
                       EvalMove.mk (location : Int) (checking_index : Int) (Piece.Knight_W : Nat) 0]
                  else if piece = Piece.Pawn_B ∧ y = 7 then
                    all_valid ++
                      [EvalMove.mk (location : Int) (checking_index : Int) (Piece.Queen_B : Nat) 0,
                       EvalMove.mk (location : Int) (checking_index : Int) (Piece.Rook_B : Nat) 0,
                       EvalMove.mk (location : Int) (checking_index : Int) (Piece.Bishop_B : Nat) 0,
                       EvalMove.mk (location : Int) (checking_index : Int) (Piece.Knight_B : Nat) 0]
                  else
                    all_valid ++ [EvalMove.mk (location : Int) (checking_index : Int) (Piece.Empty : Nat) 0]
                else all_valid)
            all_valid)
        all_valid)
    all_valid
  (e, attacked_squares, all_valid)

/-- `fen_to_piece_map.entry(t).or_insert(Piece::Empty)`: the mapped piece and
the map afterwards (an unknown key is inserted mapping to `Empty`). -/
def fenMapEntry (m : List (String × Piece)) (k : String) :
    Piece × List (String × Piece) :=
  match m.find? (fun p => p.1 == k) with
  | some p => (p.2, m)
  | none => (Piece.Empty, m ++ [(k, Piece.Empty)])

/-- `Engine::finish_turn`. -/
def Engine.finish_turn (e : Engine) : Engine :=
  let e := { e with white_turn := !e.white_turn }
  let e := { e with board_hash := e.hash_board }
  let e := { e with board_deltas := ([] : List BoardDelta) }
  let gav := e.get_all_valid_moves false []
  let e := { gav.1 with all_valid_moves := gav.2.2 }
  let e := { e with in_check := e.is_in_check e.white_turn }
  let e := { e with saved_evaluations := ([] : List (Nat × EvaluationData)) }
  { e with move_count := e.move_count + 1, move_rep_count := e.move_rep_count + 1 }

/-- The promotion block of `Engine::force_make_move`: when the moving piece
is a pawn reaching its back rank, overwrite the target square with the
promotion piece, swap-remove the pawn, push the promotion piece's location
and record the extra delta.  Returns the source's `promoted` flag and the
state. -/
def fmmPromoStep (e : Engine) (from_index to_index : Nat) (data : Piece)
    (moving_piece : Piece) : Bool × Engine :=
  if moving_piece = Piece.Pawn_W ∧ to_index / 8 = 0 then
    let e := { e with board := e.board.set to_index data }
    let e := e.remove_piece Piece.Pawn_W from_index
    let e := { e with piece_locations := locPush e.piece_locations data to_index }
    let e := { e with board_deltas := e.board_deltas ++
        [BoardDelta.mk (-1) data (to_index : Int)] }
    (true, e)
  else if moving_piece = Piece.Pawn_B ∧ to_index / 8 = 7 then
    let e := { e with board := e.board.set to_index data }
    let e := e.remove_piece Piece.Pawn_B from_index
    let e := { e with piece_locations := locPush e.piece_locations data to_index }
    let e := { e with board_deltas := e.board_deltas ++
        [BoardDelta.mk (-1) data (to_index : Int)] }
    (true, e)
  else (false, e)

/-- The en-passant capture block of `Engine::force_make_move`: when a pawn
lands on the en-passant square, clear the bypassed enemy pawn's square and
record its delta (its location-list entry is left behind, as in the
source). -/
def fmmEpCapture (e : Engine) (to_index : Nat) (moving_piece : Piece) : Engine :=
  if (to_index : Int) = e.en_passant_square then
    if moving_piece = Piece.Pawn_W then
      { e with
        board_deltas := e.board_deltas ++
          [BoardDelta.mk ((to_index : Int) + 8) Piece.Pawn_B (-1)],
        board := e.board.set (to_index + 8) Piece.Empty }
    else if moving_piece = Piece.Pawn_B then
      { e with
        board_deltas := e.board_deltas ++
          [BoardDelta.mk ((to_index : Int) - 8) Piece.Pawn_W (-1)],
        board := e.board.set (to_index - 8) Piece.Empty }
    else e
  else e

/-- The en-passant square `Engine::force_make_move` stores after a move of
`mover` from `f` to `t` (the bypassed square after a double pawn push, else
-1).  The two conditions `from - to == 16` / `to - from == 16` are `usize`
subtractions in the source: in release builds a negative difference wraps
and the comparison with 16 is false, which the truncated `Nat` subtraction
here reproduces. -/
def epNext (mover : Piece) (f t : Nat) : Int :=
  if mover = Piece.Pawn_W ∧ f - t = 16 then (f : Int) - 8
  else if mover = Piece.Pawn_B ∧ t - f = 16 then (f : Int) + 8
  else -1

/-- `Engine::force_make_move`. -/
def Engine.force_make_move (e : Engine) (from_index : Nat) (move_info : MoveInfo)
    (finish : Bool) : Engine :=
  let to_index := move_info.index
  let moving_piece := e.board.getD from_index Piece.Empty
  let captured_piece := e.board.getD to_index Piece.Empty
  let e := { e with board_deltas := e.board_deltas ++
      [BoardDelta.mk (to_index : Int) captured_piece (-1),
       BoardDelta.mk (from_index : Int) moving_piece (to_index : Int)] }
  let e := { e with board :=
      (e.board.set to_index moving_piece).set from_index Piece.Empty }
  let pr := fmmPromoStep e from_index to_index move_info.data moving_piece
  let promoted := pr.1
  let e := pr.2
  let e := fmmEpCapture e to_index moving_piece
  let e := { e with en_passant_square := epNext moving_piece from_index to_index }
  let e := if ¬promoted then e.move_piece moving_piece from_index to_index else e
  let e := if captured_piece ≠ Piece.Empty then e.remove_piece captured_piece to_index else e
  if finish then
    let e := e.finish_turn
    if moving_piece = Piece.Pawn_W ∨ moving_piece = Piece.Pawn_B ∨
        captured_piece ≠ Piece.Empty then
      { e with repetition_history := ([] : List Nat), move_rep_count := 0 }
    else
      { e with repetition_history := e.repetition_history ++ [e.board_hash] }
  else e

/-- The list-level content of the move-back branch of `unmake_move`: replace
the first occurrence of `target` with `index`, or push `index` when `target`
is absent. -/
def moveBackLoc (locs : List (List Nat)) (piece : Piece) (target index : Nat) :
    List (List Nat) :=
  let l := locs.getD piece []
  match l.findIdx? (· == target) with
  | some i => locs.set piece (l.set i index)
  | none => locPush locs piece index

/-- The per-delta body of `Engine::unmake_move`. -/
def unmakeDelta (e : Engine) (elem : BoardDelta) : Engine :=
  let target_as := elem.target.toNat
  let index_as := elem.index.toNat
  let e :=
    if elem.piece ≠ Piece.Empty then
      if elem.index = -1 then e.remove_piece elem.piece target_as
      else if e.board.getD index_as Piece.Empty ≠ Piece.Empty then
        { e with piece_locations := locPush e.piece_locations elem.piece index_as }
      else if elem.target ≠ -1 then
        { e with piece_locations := moveBackLoc e.piece_locations elem.piece target_as index_as }
      else e
    else e
  if elem.index ≠ -1 then { e with board := e.board.set index_as elem.piece } else e

/-- `Engine::unmake_move`: flip the side to move, then walk the deltas in
push order. -/
def Engine.unmake_move (e : Engine) (deltas : List BoardDelta) : Engine :=
  deltas.foldl unmakeDelta { e with white_turn := !e.white_turn }

/-- `Engine::update_castle_status`: the engine afterwards and the returned
`castled` flag. -/
def Engine.update_castle_status (e : Engine) (from_index to_index : Nat) :
    Engine × Bool :=
  let moving_piece := e.board.getD from_index Piece.Empty
  if moving_piece = Piece.King_W then
    let p :=
      if castleHas e.castle_status CastleStatus.WHITE_KING ∧ to_index = 62 then
        let e := { e with board_deltas := e.board_deltas ++
            [BoardDelta.mk 63 (e.board.getD 63 Piece.Empty) 61,
             BoardDelta.mk 61 (e.board.getD 61 Piece.Empty) (-1)] }
        let e := e.move_piece Piece.Rook_W 63 61
        let e := { e with board := (e.board.set 63 Piece.Empty).set 61 Piece.Rook_W }
        (e, true)
      else if castleHas e.castle_status CastleStatus.WHITE_QUEEN ∧ to_index = 58 then
        let e := { e with board_deltas := e.board_deltas ++
            [BoardDelta.mk 56 (e.board.getD 56 Piece.Empty) 59,
             BoardDelta.mk 59 (e.board.getD 59 Piece.Empty) (-1)] }
        let e := e.move_piece Piece.Rook_W 56 59
        let e := { e with board := (e.board.set 56 Piece.Empty).set 59 Piece.Rook_W }
        (e, true)
      else (e, false)
    let e := p.1
    let cs := castleClear (castleClear e.castle_status CastleStatus.WHITE_KING)
      CastleStatus.WHITE_QUEEN
    ({ e with castle_status := cs }, p.2)
  else if moving_piece = Piece.King_B then
    let p :=
      if castleHas e.castle_status CastleStatus.BLACK_KING ∧ to_index = 6 then
        let e := { e with board_deltas := e.board_deltas ++
            [BoardDelta.mk 7 (e.board.getD 7 Piece.Empty) 5,
             BoardDelta.mk 5 (e.board.getD 5 Piece.Empty) (-1)] }
        let e := e.move_piece Piece.Rook_B 7 5
        let e := { e with board := (e.board.set 7 Piece.Empty).set 5 Piece.Rook_B }
        (e, true)
      else if castleHas e.castle_status CastleStatus.BLACK_QUEEN ∧ to_index = 2 then
        let e := { e with board_deltas := e.board_deltas ++
            [BoardDelta.mk 0 (e.board.getD 0 Piece.Empty) 3,
             BoardDelta.mk 3 (e.board.getD 3 Piece.Empty) (-1)] }
        let e := e.move_piece Piece.Rook_B 0 3
        let e := { e with board := (e.board.set 0 Piece.Empty).set 3 Piece.Rook_B }
        (e, true)
      else (e, false)
    let e := p.1
    let cs := castleClear (castleClear e.castle_status CastleStatus.BLACK_KING)
      CastleStatus.BLACK_QUEEN
    ({ e with castle_status := cs }, p.2)
  else if moving_piece = Piece.Rook_W ∧ from_index = 56 then
    ({ e with castle_status := castleClear e.castle_status CastleStatus.WHITE_QUEEN }, false)
  else if moving_piece = Piece.Rook_W ∧ from_index = 63 then
    ({ e with castle_status := castleClear e.castle_status CastleStatus.WHITE_KING }, false)
  else if moving_piece = Piece.Rook_B ∧ from_index = 0 then
    ({ e with castle_status := castleClear e.castle_status CastleStatus.BLACK_QUEEN }, false)
  else if moving_piece = Piece.Rook_B ∧ from_index = 7 then
    ({ e with castle_status := castleClear e.castle_status CastleStatus.BLACK_KING }, false)
  else (e, false)

/-- The per-delta body of the `Engine::update_hash` loop: XOR out the word
of the recorded (old) piece at the delta's index and XOR in the word of the
piece now on the board there; deltas with index -1 are skipped.  `e` carries
the state after the move. -/
def uhDelta (e : Engine) (h : Nat) (elem : BoardDelta) : Nat :=
  if elem.index ≠ -1 then
    let position := elem.index.toNat
    let piece : Int := (elem.piece : Int) - 1
    let new_piece : Int := (e.board.getD position Piece.Empty : Int) - 1
    let h := if 0 ≤ piece then h ^^^ e.zobrist_hash_table position piece.toNat else h
    if 0 ≤ new_piece then h ^^^ e.zobrist_hash_table position new_piece.toNat else h
  else h

/-- `Engine::update_hash`: `self` carries the state after the move (new
board, castle rights, en-passant square); the old hash, en-passant square and
castle rights are passed in. -/
def Engine.update_hash (e : Engine) (deltas : List BoardDelta)
    (current_hash : Nat) (old_en_passant : Int) (old_castle_status : Nat) : Nat :=
  let new_hash := deltas.foldl (uhDelta e) current_hash
  let new_hash := if castleHas old_castle_status CastleStatus.WHITE_KING ≠
      castleHas e.castle_status CastleStatus.WHITE_KING then
    new_hash ^^^ e.zobrist_hash_table 64 0 else new_hash
  let new_hash := if castleHas old_castle_status CastleStatus.WHITE_QUEEN ≠
      castleHas e.castle_status CastleStatus.WHITE_QUEEN then
    new_hash ^^^ e.zobrist_hash_table 64 1 else new_hash
  let new_hash := if castleHas old_castle_status CastleStatus.BLACK_KING ≠
      castleHas e.castle_status CastleStatus.BLACK_KING then
    new_hash ^^^ e.zobrist_hash_table 64 2 else new_hash
  let new_hash := if castleHas old_castle_status CastleStatus.BLACK_QUEEN ≠
      castleHas e.castle_status CastleStatus.BLACK_QUEEN then
    new_hash ^^^ e.zobrist_hash_table 64 3 else new_hash
  let new_hash := new_hash ^^^ e.zobrist_hash_table 65 0
  if old_en_passant ≠ e.en_passant_square then
    let h := if old_en_passant ≠ -1 then
      new_hash ^^^ e.zobrist_hash_table 66 old_en_passant.toNat else new_hash
    if e.en_passant_square ≠ -1 then
      h ^^^ e.zobrist_hash_table 66 e.en_passant_square.toNat else h
  else new_hash

/-- Split a character list at every occurrence of `sep` (Rust
`str::split` on a one-character pattern: `""` yields `[""]`, separators at
the ends yield empty fragments).  `String.splitOn` itself is defined by
well-founded recursion and does not reduce in the kernel, hence this
structural equivalent. -/
def splitCharsAux : List Char → Char → List Char → List (List Char)
  | [], _, cur => [cur.reverse]
  | c :: rest, sep, cur =>
    if c = sep then cur.reverse :: splitCharsAux rest sep []
    else splitCharsAux rest sep (c :: cur)

/-- Split a string on a separator character. -/
def splitStr (s : String) (sep : Char) : List String :=
  (splitCharsAux s.data sep []).map (fun l => String.mk l)

/-- Parse a nonempty all-digit character list (`usize`/`i32` digit parse). -/
def parseNatChars (l : List Char) : Option Nat :=
  if l ≠ [] ∧ l.all Char.isDigit then
    some (l.foldl (fun a c => a * 10 + (c.toNat - 48)) 0)
  else none

/-- Rust `str::parse::<i32>()`: optional sign, then digits. -/
def parseIntStr (s : String) : Option Int :=
  match s.data with
  | '-' :: rest => (parseNatChars rest).map (fun n => -(n : Int))
  | '+' :: rest => (parseNatChars rest).map (fun n => (n : Int))
  | l => (parseNatChars l).map (fun n => (n : Int))

/-- One placement-field character of `parse_fen`: a digit advances the board
index, a letter places the mapped piece (panic — `none` — when the write
would leave the 64-square board). -/
def parseRankStep (acc : Engine × Nat) (t : Char) : Option (Engine × Nat) :=
  let e := acc.1
  let board_index := acc.2
  if t.isDigit then
    some (e, board_index + (t.toNat - 48))
  else
    let pm := fenMapEntry e.fen_to_piece_map (String.mk [t])
    if board_index < 64 then
      some ({ e with
          fen_to_piece_map := pm.2,
          board := e.board.set board_index pm.1,
          piece_locations := locPush e.piece_locations pm.1 board_index },
        board_index + 1)
    else none

/-- One rank of the placement field of `parse_fen`. -/
def parseRank (acc : Engine × Nat) (r : String) : Option (Engine × Nat) :=
  r.data.foldlM parseRankStep acc

/-- The castle-rights mask the castling field of a FEN sets: start from
`UNSET` and or in one flag per letter present (the source performs the same
four conditional `|=` updates directly on `self.castle_status`). -/
def parseCastleField (s : String) : Nat :=
  let cs : Nat := 0
  let cs := if s.data.contains 'K' then cs ||| CastleStatus.WHITE_KING else cs
  let cs := if s.data.contains 'Q' then cs ||| CastleStatus.WHITE_QUEEN else cs
  let cs := if s.data.contains 'k' then cs ||| CastleStatus.BLACK_KING else cs
  if s.data.contains 'q' then cs ||| CastleStatus.BLACK_QUEEN else cs

/-- The second half of `Engine::parse_fen`, from the side-to-move field on
(named so the placement fold and the rest can be reasoned about
separately). -/
def parseFenTail (e : Engine) (fields : List String) : Option Engine :=
      let e := { e with white_turn := fields.getD 1 "" == "w" }
      let e := { e with castle_status := parseCastleField (fields.getD 2 "") }
      let ep : Option Engine :=
        if fields.getD 3 "" ≠ "-" then
          match (fields.getD 3 "").data with
          | c0 :: c1 :: _ =>
              some { e with en_passant_square :=
                (Engine.notation_to_index c1 c0 : Int) }
          | _ => none
        else some e
      match ep with
      | none => none
      | some e =>
        match parseIntStr (fields.getD 4 ""), parseIntStr (fields.getD 5 "") with
        | some rep, some mc =>
          let e := { e with move_rep_count := rep }
          let e := { e with move_count := mc * 2 - 2 }
          let e := { e with board_hash := e.hash_board }
          let e := { e with repetition_history := [e.board_hash] }
          let gav := e.get_all_valid_moves false []
          some { gav.1 with all_valid_moves := gav.2.2 }
        | _, _ => none

/-- `Engine::parse_fen`.  `none` stands for the places where the source
panics (board overflow from a placement field with too many squares, a short
en-passant field, an unparsable move counter); `some e` is the engine the
call leaves behind.  Splitting a rank on `""` in Rust yields its characters
(with empty fragments that the source skips), modelled by folding over the
rank's characters. -/
def Engine.parse_fen (e : Engine) (fen : String) : Option Engine :=
  let fields := splitStr fen ' '
  if fields.length ≠ 6 then some e
  else
    let ranks := splitStr (fields.getD 0 "") '/'
    let placed : Option (Engine × Nat) := ranks.foldlM parseRank (e, 0)
    match placed with
    | none => none
    | some p => parseFenTail p.1 fields

/-- `Engine::get_piece_value` (static). -/
def get_piece_value (piece : Piece) : Int :=
  if piece = Piece.Queen_W ∨ piece = Piece.Queen_B then Value.QUEEN
  else if piece = Piece.Rook_W ∨ piece = Piece.Rook_B then Value.ROOK
  else if piece = Piece.Bishop_W ∨ piece = Piece.Bishop_B then Value.BISHOP
  else if piece = Piece.Knight_W ∨ piece = Piece.Knight_B then Value.KNIGHT
  else if piece = Piece.Pawn_W ∨ piece = Piece.Pawn_B then Value.PAWN
  else 0

/-- `Engine::count_material`. -/
def Engine.count_material (e : Engine) (white : Bool) : Int :=
  let start_index : Nat := if white then 8 else 2
  let end_index : Nat := if white then 12 else 6
  (List.range' start_index (end_index - start_index + 1)).foldl
    (fun v (i : Nat) =>
      v + get_piece_value (Piece.from_num (i : Int)) *
        ((e.piece_locations.getD i []).length : Int))
    0

/-- `Engine::read_square_table_value`. -/
def read_square_table_value (index : Nat) (table : List Int) (white : Bool) : Int :=
  if !white then table.getD (63 - index) 0 else table.getD index 0

/-- `Engine::evaluate_square_table`. -/
def Engine.evaluate_square_table (e : Engine) (piece : Piece) (table : List Int)
    (white : Bool) : Int :=
  if piece = Piece.Empty then 0
  else
    (e.piece_locations.getD piece []).foldl
      (fun v pos => v + read_square_table_value pos table white) 0

/-- Rust `as i32` on an `f32`: truncation toward zero, on the rational model. -/
def truncQ (q : ℚ) : Int := if 0 ≤ q then ⌊q⌋ else ⌈q⌉

/-- `Engine::evaluate_square_tables`.  The endgame weight is `f32` in the
source, `ℚ` here (see the header note on exactness). -/
def Engine.evaluate_square_tables (e : Engine) (white : Bool)
    (endgame_weight : ℚ) : Int :=
  if white then
    let value := e.evaluate_square_table Piece.Pawn_W PAWN_SQUARE_TABLE white
    let value := value + e.evaluate_square_table Piece.Rook_W ROOK_SQUARE_TABLE white
    let value := value + e.evaluate_square_table Piece.Knight_W KNIGHT_SQUARE_TABLE white
    let value := value + e.evaluate_square_table Piece.Bishop_W BISHOP_SQUARE_TABLE white
    let value := value + e.evaluate_square_table Piece.Queen_W QUEEN_SQUARE_TABLE white
    let king_mid_game_value :=
      e.evaluate_square_table Piece.King_W KING_MIDDLE_GAME_SQUARE_TABLE white
    value + truncQ ((king_mid_game_value : ℚ) * (1 - endgame_weight))
  else
    let value := e.evaluate_square_table Piece.Pawn_B PAWN_SQUARE_TABLE white
    let value := value + e.evaluate_square_table Piece.Rook_B ROOK_SQUARE_TABLE white
    let value := value + e.evaluate_square_table Piece.Knight_B KNIGHT_SQUARE_TABLE white
    let value := value + e.evaluate_square_table Piece.Bishop_B BISHOP_SQUARE_TABLE white
    let value := value + e.evaluate_square_table Piece.Queen_B QUEEN_SQUARE_TABLE white
    let king_mid_game_value :=
      e.evaluate_square_table Piece.King_B KING_MIDDLE_GAME_SQUARE_TABLE white
    value + truncQ ((king_mid_game_value : ℚ) * (1 - endgame_weight))

/-- `i32::abs`. -/
def iabs (n : Int) : Int := if n < 0 then -n else n

/-- `Engine::evaluate_end_game_position`. -/
def evaluate_end_game_position (endgame_weight : ℚ) (op_king_x op_king_y : Int)
    (distance : Int) : Int :=
  let score : Int := 0
  let dist_to_center := iabs (op_king_x - 4) + iabs (op_king_y - 4)
  let score := score + dist_to_center
  let score := score + (14 - distance)
  truncQ ((score : ℚ) * 20 * endgame_weight)

/-- `Engine::evaluate`.  Note line 774 of the source: the black square-table
call receives `white_end_game_weight`, not black's own weight. -/
def Engine.evaluate (e : Engine) : Int :=
  let material_weight : Int := 1
  let development_weight : Int := 1
  let white_material := e.count_material true
  let black_material := e.count_material false
  let white_material_no_pawns := white_material -
    ((e.piece_locations.getD Piece.Pawn_W []).length : Int) * get_piece_value Piece.Pawn_W
  let black_material_no_pawns := black_material -
    ((e.piece_locations.getD Piece.Pawn_B []).length : Int) * get_piece_value Piece.Pawn_B
  let endgame_material_threshold : Int := Value.ROOK * 2 + Value.BISHOP + Value.KNIGHT
  let white_end_game_weight : ℚ :=
    1 - min 1 ((white_material_no_pawns : ℚ) / (endgame_material_threshold : ℚ))
  let black_end_game_weight : ℚ :=
    1 - min 1 ((black_material_no_pawns : ℚ) / (endgame_material_threshold : ℚ))
  let white_eval := white_material * material_weight
  let black_eval := black_material * material_weight
  let white_eval := white_eval +
    e.evaluate_square_tables true white_end_game_weight * development_weight
  let black_eval := black_eval +
    e.evaluate_square_tables false white_end_game_weight * development_weight
  let wk := (e.piece_locations.getD Piece.King_W []).getD 0 0
  let bk := (e.piece_locations.getD Piece.King_B []).getD 0 0
  let white_x : Int := (wk : Int) % 8
  let white_y : Int := (wk : Int) / 8
  let black_x : Int := (bk : Int) % 8
  let black_y : Int := (bk : Int) / 8
  let distance_between := iabs (white_x - black_x) + iabs (white_y - black_y)
  let white_eval := white_eval +
    evaluate_end_game_position white_end_game_weight black_x black_y distance_between
  let black_eval := black_eval +
    evaluate_end_game_position black_end_game_weight white_x white_y distance_between
  let evaluation := white_eval - black_eval
  if !e.white_turn then evaluation * (-1) else evaluation

/-- Modelled from the spec: `evaluate` as §4.3 describes it, each side's king
middle-game square-table term scaled by that side's own endgame weight (the
source instead passes white's weight to both `evaluate_square_tables`
calls; this definition exists to be compared against `Engine.evaluate`). -/
def Engine.evaluate_spec_weights (e : Engine) : Int :=
  let material_weight : Int := 1
  let development_weight : Int := 1
  let white_material := e.count_material true
  let black_material := e.count_material false
  let white_material_no_pawns := white_material -
    ((e.piece_locations.getD Piece.Pawn_W []).length : Int) * get_piece_value Piece.Pawn_W
  let black_material_no_pawns := black_material -
    ((e.piece_locations.getD Piece.Pawn_B []).length : Int) * get_piece_value Piece.Pawn_B
  let endgame_material_threshold : Int := Value.ROOK * 2 + Value.BISHOP + Value.KNIGHT
  let white_end_game_weight : ℚ :=
    1 - min 1 ((white_material_no_pawns : ℚ) / (endgame_material_threshold : ℚ))
  let black_end_game_weight : ℚ :=
    1 - min 1 ((black_material_no_pawns : ℚ) / (endgame_material_threshold : ℚ))
  let white_eval := white_material * material_weight
  let black_eval := black_material * material_weight
  let white_eval := white_eval +
    e.evaluate_square_tables true white_end_game_weight * development_weight
  let black_eval := black_eval +
    e.evaluate_square_tables false black_end_game_weight * development_weight
  let wk := (e.piece_locations.getD Piece.King_W []).getD 0 0
  let bk := (e.piece_locations.getD Piece.King_B []).getD 0 0
  let white_x : Int := (wk : Int) % 8
  let white_y : Int := (wk : Int) / 8
  let black_x : Int := (bk : Int) % 8
  let black_y : Int := (bk : Int) / 8
  let distance_between := iabs (white_x - black_x) + iabs (white_y - black_y)
  let white_eval := white_eval +
    evaluate_end_game_position white_end_game_weight black_x black_y distance_between
  let black_eval := black_eval +
    evaluate_end_game_position black_end_game_weight white_x white_y distance_between
  let evaluation := white_eval - black_eval
  if !e.white_turn then evaluation * (-1) else evaluation

/-- The bubbling pass of `Engine::predict_and_order_moves`: insert a scored
move into the already-scored (descending-sorted) processed part, moving it
left while its score is strictly greater. -/
def insertMoveDesc : List EvalMove → EvalMove → List EvalMove
  | [], m => [m]
  | x :: xs, m => if x.score < m.score then m :: x :: xs else x :: insertMoveDesc xs m

/-- `Engine::predict_and_order_moves`: score each move and insertion-sort by
descending score in the same pass (the source bubbles `moves[i]` left inside
the scoring loop, which is stable insertion sort on the scored list). -/
def Engine.predict_and_order_moves (e : Engine) (moves : List EvalMove)
    (attacked_squares : List Nat) : List EvalMove :=
  moves.foldl
    (fun done mov =>
      let moving_piece := e.board.getD mov.from_sq.toNat Piece.Empty
      let capturing_piece := e.board.getD mov.to_sq.toNat Piece.Empty
      let promoting := Piece.from_num mov.data
      let score : Int := 0
      let score := if capturing_piece ≠ Piece.Empty then
        score + 10 * get_piece_value capturing_piece - get_piece_value moving_piece
        else score
      let score := if attacked_squares.contains mov.to_sq.toNat then
        score - get_piece_value moving_piece else score
      let score := if moving_piece = Piece.Pawn_W ∨ moving_piece = Piece.Pawn_B then
        score + get_piece_value promoting else score
      insertMoveDesc done { mov with score := score })
    []

/-- `saved_evaluations.get(&hash)` on the association-list model of the map. -/
def hmGet (m : List (Nat × EvaluationData)) (k : Nat) : Option EvaluationData :=
  (m.find? (fun p => p.1 == k)).map (fun p => p.2)

/-- `saved_evaluations.insert(hash, v)` (replacing any previous binding). -/
def hmInsert (m : List (Nat × EvaluationData)) (k : Nat) (v : EvaluationData) :
    List (Nat × EvaluationData) :=
  (k, v) :: m.filter (fun p => p.1 != k)

/-- `i32::MIN`. -/
def IntMin : Int := -2147483648

/-- `i32::MAX`. -/
def IntMax : Int := 2147483647

/-- The attack-map and move-generation block the search runs before its move
loop (`pinned_pieces.clear()`, `get_attacked_squares` with pin detection,
then `get_all_valid_moves`): the engine as the block leaves it, the attack
map, and the legal move list. -/
def searchMoveGen (e : Engine) (captures_only : Bool) :
    Engine × List Nat × List EvalMove :=
  let e := { e with pinned_pieces := ([] : List Nat) }
  let pr := e.get_attacked_squares e.white_turn (-1) true [] []
  let e := { e with pinned_pieces := pr.1 }
  e.get_all_valid_moves captures_only pr.2

/-- `Engine::quiescence_search`.  The source recursion has no depth bound
(it terminates because only captures are searched); the model carries a fuel
counter, consumed once per recursive call, and returns score 0 when it runs
out — every theorem below supplies enough fuel to never reach that case.
The early `return` of the move loop is the `done` flag of the fold. -/
def Engine.quiescence_search : Engine → Int → Int → Nat → Engine × Int
  | e, _alpha, _beta, 0 => (e, 0)
  | e, alpha, beta, fuel + 1 =>
    let evaluation := e.evaluate
    if beta ≤ evaluation then (e, beta)
    else
      let alpha := if alpha < evaluation then evaluation else alpha
      let gav := searchMoveGen e true
      let e := gav.1
      let valid_moves := e.predict_and_order_moves gav.2.2 gav.2.1
      let starting_en_passant := e.en_passant_square
      let r := valid_moves.foldl
        (fun (acc : Engine × Int × Bool) mov =>
          if acc.2.2 then acc
          else
            let e := acc.1
            let alpha := acc.2.1
            let e := e.force_make_move mov.from_sq.toNat
              ⟨mov.to_sq.toNat, Piece.from_num mov.data⟩ false
            let stored_deltas := e.board_deltas
            let e := { e with board_deltas := ([] : List BoardDelta) }
            let e := { e with white_turn := !e.white_turn }
            let qr := Engine.quiescence_search e (-beta) (-alpha) fuel
            let evaluation := -1 * qr.2
            let e := (qr.1).unmake_move stored_deltas
            let e := { e with en_passant_square := starting_en_passant }
            if beta ≤ evaluation then (e, beta, true)
            else if alpha < evaluation then (e, evaluation, false)
            else (e, alpha, false))
        (e, alpha, false)
      (r.1, r.2.1)

/-- The move loop of `Engine::find_best_move` — everything the source does
once at least one legal move exists: order the moves, fold the alpha-beta
loop over them (the early `return beta` is the `Option Int` slot of the
accumulator), and finally store the evaluation in the transposition table.
The recursive search call is abstracted as `recur` (instantiated below with
`find_best_move` at the next depth/offset and one less fuel). -/
def fbmMoveLoop (recur : Engine → Int → Int → Engine × Int)
    (e : Engine) (valid_moves0 : List EvalMove) (attacked_squares : List Nat)
    (depth offset alpha beta : Int) : Engine × Int :=
  let valid_moves := e.predict_and_order_moves valid_moves0 attacked_squares
  let starting_hash := e.board_hash
  let starting_en_passant := e.en_passant_square
  let starting_castle_status := e.castle_status
  let r := valid_moves.foldl
    (fun (acc : Engine × Int × EvalMove × SavedEvalType × Option Int) mov =>
      match acc.2.2.2.2 with
      | some _ => acc
      | none =>
        let e := acc.1
        let alpha := acc.2.1
        let best := acc.2.2.1
        let saving := acc.2.2.2.1
        let e := (e.update_castle_status mov.from_sq.toNat mov.to_sq.toNat).1
        let e := e.force_make_move mov.from_sq.toNat
          ⟨mov.to_sq.toNat, Piece.from_num mov.data⟩ false
        let stored_deltas := e.board_deltas
        let e := { e with board_deltas := ([] : List BoardDelta) }
        let e := { e with white_turn := !e.white_turn }
        let nh := e.update_hash stored_deltas starting_hash
          starting_en_passant starting_castle_status
        let e := { e with board_hash := nh }
        let fr := recur e (-beta) (-alpha)
        let evaluation := -1 * fr.2
        let e := (fr.1).unmake_move stored_deltas
        let e := { e with
          board_hash := starting_hash,
          en_passant_square := starting_en_passant,
          castle_status := starting_castle_status }
        if beta ≤ evaluation then
          let m2 := hmInsert e.saved_evaluations e.board_hash
            (EvaluationData.mk 0 beta best depth SavedEvalType.Beta)
          let e := { e with saved_evaluations := m2 }
          (e, alpha, best, saving, some beta)
        else if alpha < evaluation then
          let best := mov
          let e :=
            if offset = 0 then
              let bmi := { best with score := evaluation }
              let e := { e with best_move_this_iteration := bmi }
              let dbg := DebugMoveOutput.mk bmi
                ((e.board.getD bmi.from_sq.toNat Piece.Empty : Nat) : Int)
                (if e.board.getD bmi.to_sq.toNat Piece.Empty ≠ Piece.Empty
                  then 1 else 0)
              let lst := e.moves_found_this_iteration ++ [dbg]
              { e with moves_found_this_iteration := lst }
            else e
          (e, evaluation, best, SavedEvalType.Exact, none)
        else (e, alpha, best, saving, none))
    (e, alpha, EvalMove.default, SavedEvalType.Alpha, none)
  match r.2.2.2.2 with
  | some result => (r.1, result)
  | none =>
    let e := r.1
    let m2 := hmInsert e.saved_evaluations e.board_hash
      (EvaluationData.mk 0 r.2.1 r.2.2.1 depth r.2.2.2.1)
    let e := { e with saved_evaluations := m2 }
    (e, r.2.1)

/-- `Engine::find_best_move`.  As for quiescence, a fuel counter stands in
for the unbounded recursion; one unit is consumed per nested call and every
theorem supplies enough fuel.  `now("") - search_start_time` is a wrapping
`u32` subtraction in the source; the clock streams used here never run
backwards, where the truncated `Nat` subtraction agrees with it. -/
def Engine.find_best_move : Engine → Bool → Int → Int → Int → Int → Nat → Engine × Int
  | e, _, _, _, _, _, 0 => (e, 0)
  | e, can_cancel, depth, offset, alpha, beta, fuel + 1 =>
    let body := fun (e : Engine) =>
      if depth ≤ 0 then e.quiescence_search alpha beta fuel
      else if 0 < offset ∧ e.repetition_history.contains e.board_hash then (e, 0)
      else
        let alpha := max alpha (IntMin + offset + 1)
        let beta := min beta (IntMax - offset - 1)
        if beta ≤ alpha then (e, alpha)
        else
          let mainSearch := fun (e : Engine) =>
            let gav := searchMoveGen e false
            let e := gav.1
            let attacked_squares := gav.2.1
            let valid_moves := gav.2.2
            if valid_moves.length = 0 then
              if e.is_in_check_attacked_squares e.white_turn attacked_squares then
                (e, IntMin + offset)
              else (e, 0)
            else
              fbmMoveLoop
                (fun e a b => Engine.find_best_move e can_cancel (depth - 1)
                  (offset + 1) a b fuel)
                e valid_moves attacked_squares depth offset alpha beta
          match hmGet e.saved_evaluations e.board_hash with
          | some saved_eval =>
            let should_return :=
              if depth ≤ saved_eval.depth then
                if saved_eval.saved_type = SavedEvalType.Exact then true
                else if saved_eval.saved_type = SavedEvalType.Alpha ∧
                    saved_eval.eval ≤ alpha then true
                else if saved_eval.saved_type = SavedEvalType.Beta ∧
                    beta ≤ saved_eval.eval then true
                else false
              else false
            if should_return then
              let e := if offset = 0 then
                { e with best_move_this_iteration :=
                  { saved_eval.best_move with score := saved_eval.eval } }
                else e
              (e, saved_eval.eval)
            else mainSearch e
          | none => mainSearch e
    if can_cancel then
      let p := e.takeNow
      if p.2.search_max_time ≤ p.1 - p.2.search_start_time then (p.2, 0)
      else body p.2
    else body e

/-- One iteration of the deepening loop of `Engine::find_best_move_iterative`:
the accumulator is (engine, `last_completed_depth`, loop-broken flag); the
`post_eval_message` call is a one-way notification to the host and has no
state effect. -/
def iterStep (fuel_search : Nat) (acc : Engine × Int × Bool) (i : Nat) :
    Engine × Int × Bool :=
  if acc.2.2 then acc
  else
    let fr := acc.1.find_best_move true (i : Int) 0 IntMin IntMax fuel_search
    let e := fr.1
    let p := e.takeNow
    let t := p.1
    let e := p.2
    if e.search_max_time ≤ t - e.search_start_time then (e, acc.2.1, true)
    else
      let e := { e with best_move := e.best_move_this_iteration }
      let e := { e with
        moves_found_this_turn := e.moves_found_this_iteration,
        moves_found_this_iteration := e.moves_found_this_turn }
      let e := { e with moves_found_this_iteration := ([] : List DebugMoveOutput) }
      if 99999999 ≤ e.best_move.score then (e, (i : Int), true)
      else (e, (i : Int), false)

/-- `Engine::find_best_move_iterative`: read the start time, run depths 1..30
through `iterStep`, record the last completed depth. -/
def Engine.find_best_move_iterative (e : Engine) (fuel_search : Nat) : Engine :=
  let p := e.takeNow
  let e := { p.2 with search_start_time := p.1 }
  let r := (List.range' 1 30).foldl (iterStep fuel_search) (e, 0, false)
  { r.1 with depth_searched_last_turn := r.2.1 }

/-- All-zero Zobrist table, used for concrete test engines. -/
def zob0 : Nat → Nat → Nat := fun _ _ => 0

/-- Frozen host clock, used for concrete test engines. -/
def clock0 : Nat → Nat := fun _ => 0

/-- A freshly constructed engine over the trivial external inputs. -/
def e0 : Engine := Engine.new zob0 clock0

/-- Modelled from the spec (§4.5): a well-formed six-field FEN string —
six space-separated fields; the placement field has eight `/`-separated
ranks, each a nonempty run of digits `1..8` and piece letters `KQRBNPkqrbnp`
covering exactly eight squares; side to move `w` or `b`; castling rights a
nonempty subset of `KQkq` or `-`; en-passant square `-` or file+rank; the
two move counters digit strings. -/
def wellFormedFEN (fen : String) : Prop :=
  let fields := splitStr fen ' '
  fields.length = 6 ∧
  (splitStr (fields.getD 0 "") '/').length = 8 ∧
  (∀ r ∈ splitStr (fields.getD 0 "") '/',
    r.data ≠ [] ∧
    (∀ c ∈ r.data,
      (c.isDigit ∧ c ≠ '0' ∧ c ≠ '9') ∨ c ∈ ("KQRBNPkqrbnp".data)) ∧
    (r.data.map (fun c => if c.isDigit then c.toNat - 48 else 1)).sum = 8) ∧
  (fields.getD 1 "" = "w" ∨ fields.getD 1 "" = "b") ∧
  (fields.getD 2 "" = "-" ∨
    ((fields.getD 2 "").data ≠ [] ∧
     ∀ c ∈ (fields.getD 2 "").data, c ∈ (['K', 'Q', 'k', 'q'] : List Char))) ∧
  (fields.getD 3 "" = "-" ∨
    (∃ cf cr, (fields.getD 3 "").data = [cf, cr] ∧
      'a' ≤ cf ∧ cf ≤ 'h' ∧ '1' ≤ cr ∧ cr ≤ '8')) ∧
  ((fields.getD 4 "").data ≠ [] ∧ ∀ c ∈ (fields.getD 4 "").data, c.isDigit) ∧
  ((fields.getD 5 "").data ≠ [] ∧ ∀ c ∈ (fields.getD 5 "").data, c.isDigit)

/-- The board/location-list correspondence invariant of spec §3: each valid
square holds piece `c` exactly when that square appears in `c`'s location
list, and then exactly once. -/
def locationsInvariant (e : Engine) : Prop :=
  ∀ c : Nat, c < 13 → ∀ s : Nat, s < 64 → 1 ≤ c →
    (e.piece_locations.getD c []).count s =
      (if e.board.getD s Piece.Empty = c then 1 else 0)

/-- A move as the search applies it: from square, to square, promotion piece
(the `data` of the `MoveInfo` handed to `force_make_move`). -/
structure SMove where
  from_sq : Nat
  to_sq : Nat
  promo : Piece
deriving DecidableEq, Repr

/-- One move application exactly as the `find_best_move` loop performs it:
`update_castle_status`, then `force_make_move` with `finish_turn = false`,
then swap out the recorded deltas and flip the side to move.  Returns the
state and the swapped-out deltas. -/
def searchMake (e : Engine) (m : SMove) : Engine × List BoardDelta :=
  let e1 := (e.update_castle_status m.from_sq m.to_sq).1
  let e2 := e1.force_make_move m.from_sq ⟨m.to_sq, m.promo⟩ false
  ({ e2 with board_deltas := ([] : List BoardDelta), white_turn := !e2.white_turn },
   e2.board_deltas)

/-- The reversal as the search performs it: `unmake_move` on the stored
deltas, then restore the snapshotted hash, en-passant square and castle
rights. -/
def searchUnmake (e : Engine) (stored : List BoardDelta) (snapHash : Nat)
    (snapEp : Int) (snapCastle : Nat) : Engine :=
  let e := e.unmake_move stored
  { e with
    board_hash := snapHash,
    en_passant_square := snapEp,
    castle_status := snapCastle }

/-- Apply a sequence of moves with `searchMake` and reverse them with
`searchUnmake` in LIFO order, snapshotting hash/en-passant/castle rights
around each move exactly as `find_best_move` does. -/
def makeUnmakeAll : Engine → List SMove → Engine
  | e, [] => e
  | e, m :: ms =>
    let snapHash := e.board_hash
    let snapEp := e.en_passant_square
    let snapCastle := e.castle_status
    let p := searchMake e m
    searchUnmake (makeUnmakeAll p.1 ms) p.2 snapHash snapEp snapCastle

/-- The properties a legal move of a reachable position has at the state
where it is applied (they hold for every move the generator emits from a
position whose location lists are in sync with the board).  They are the
hypotheses under which one `searchMake` is reversible. -/
def moveOk (e : Engine) (f t : Nat) (promo : Piece) : Prop :=
  let b := e.board
  let locs := e.piece_locations
  let mover := b.getD f Piece.Empty
  let cap := b.getD t Piece.Empty
  f < 64 ∧ t < 64 ∧ f ≠ t ∧
  mover ≠ Piece.Empty ∧ mover ≤ 12 ∧ cap ≤ 12 ∧ cap ≠ mover ∧
  f ∈ locs.getD mover [] ∧ t ∉ locs.getD mover [] ∧
  (cap ≠ Piece.Empty → t ∈ locs.getD cap []) ∧
  (mover = Piece.Pawn_W ∧ t / 8 = 0 →
    promo ≠ Piece.Empty ∧ promo ≠ mover ∧ promo ≠ cap ∧ promo ≤ 12 ∧
    t ∉ locs.getD promo [] ∧ (t : Int) ≠ e.en_passant_square) ∧
  (mover = Piece.Pawn_B ∧ t / 8 = 7 →
    promo ≠ Piece.Empty ∧ promo ≠ mover ∧ promo ≠ cap ∧ promo ≤ 12 ∧
    t ∉ locs.getD promo [] ∧ (t : Int) ≠ e.en_passant_square) ∧
  (mover = Piece.Pawn_W ∧ (t : Int) = e.en_passant_square →
    t / 8 ≠ 0 ∧ t + 8 < 64 ∧ b.getD (t + 8) Piece.Empty = Piece.Pawn_B ∧
    t + 8 ≠ f ∧ cap = Piece.Empty) ∧
  (mover = Piece.Pawn_B ∧ (t : Int) = e.en_passant_square →
    t / 8 ≠ 7 ∧ 8 ≤ t ∧ b.getD (t - 8) Piece.Empty = Piece.Pawn_W ∧
    t - 8 ≠ f ∧ cap = Piece.Empty) ∧
  (mover = Piece.King_W ∧ castleHas e.castle_status CastleStatus.WHITE_KING = true ∧
      t = 62 →
    f = 60 ∧ b.getD 63 Piece.Empty = Piece.Rook_W ∧
    b.getD 61 Piece.Empty = Piece.Empty ∧ cap = Piece.Empty ∧
    63 ∈ locs.getD Piece.Rook_W [] ∧ 61 ∉ locs.getD Piece.Rook_W []) ∧
  (mover = Piece.King_W ∧ castleHas e.castle_status CastleStatus.WHITE_QUEEN = true ∧
      t = 58 →
    f = 60 ∧ b.getD 56 Piece.Empty = Piece.Rook_W ∧
    b.getD 59 Piece.Empty = Piece.Empty ∧ cap = Piece.Empty ∧
    56 ∈ locs.getD Piece.Rook_W [] ∧ 59 ∉ locs.getD Piece.Rook_W []) ∧
  (mover = Piece.King_B ∧ castleHas e.castle_status CastleStatus.BLACK_KING = true ∧
      t = 6 →
    f = 4 ∧ b.getD 7 Piece.Empty = Piece.Rook_B ∧
    b.getD 5 Piece.Empty = Piece.Empty ∧ cap = Piece.Empty ∧
    7 ∈ locs.getD Piece.Rook_B [] ∧ 5 ∉ locs.getD Piece.Rook_B []) ∧
  (mover = Piece.King_B ∧ castleHas e.castle_status CastleStatus.BLACK_QUEEN = true ∧
      t = 2 →
    f = 4 ∧ b.getD 0 Piece.Empty = Piece.Rook_B ∧
    b.getD 3 Piece.Empty = Piece.Empty ∧ cap = Piece.Empty ∧
    0 ∈ locs.getD Piece.Rook_B [] ∧ 3 ∉ locs.getD Piece.Rook_B [])

/-- A sequence of moves each of which is `moveOk` at the state where the
search applies it. -/
def SeqOk : Engine → List SMove → Prop
  | _, [] => True
  | e, m :: ms => moveOk e m.from_sq m.to_sq m.promo ∧ SeqOk (searchMake e m).1 ms

/-- Stalemate test position: black to move with king a8, white queen c7 and
white king g1; black has no legal move and is not in check. -/
def eStale : Engine :=
  { e0 with
    board := (((List.replicate 64 Piece.Empty).set 0 Piece.King_B).set 10
      Piece.Queen_W).set 62 Piece.King_W,
    piece_locations := (((List.replicate 15 ([] : List Nat)).set 1 [0]).set 8
      [10]).set 7 [62],
    white_turn := false,
    en_passant_square := -1 }

/-- Checkmate test position: black to move with king a8, white queen b7
protected by the white king on b6; black has no legal move and is in
check. -/
def eMate : Engine :=
  { e0 with
    board := (((List.replicate 64 Piece.Empty).set 0 Piece.King_B).set 9
      Piece.Queen_W).set 17 Piece.King_W,
    piece_locations := (((List.replicate 15 ([] : List Nat)).set 1 [0]).set 8
      [9]).set 7 [17],
    white_turn := false,
    en_passant_square := -1 }

/-- A transposition-table entry with a large negative (mate-against) exact
score at depth 1000, keyed by hash 5. -/
def c7ttNeg : List (Nat × EvaluationData) :=
  [(5, EvaluationData.mk 0 (-100000000) (EvalMove.mk 1 2 0 0) 1000
    SavedEvalType.Exact)]

/-- Engine whose every root search resolves through `c7ttNeg`. -/
def e7neg : Engine := { e0 with board_hash := 5, saved_evaluations := c7ttNeg }

/-- As `c7ttNeg` with a large positive (mating) exact score. -/
def c7ttPos : List (Nat × EvaluationData) :=
  [(5, EvaluationData.mk 0 100000000 (EvalMove.mk 1 2 0 0) 1000
    SavedEvalType.Exact)]

/-- Engine whose every root search resolves through `c7ttPos`, as the
deepening loop sees it (start time already read). -/
def e7pos : Engine :=
  { e0 with
    board_hash := 5,
    saved_evaluations := c7ttPos,
    search_start_time := 0,
    now_index := 1 }

/-- Evaluation test position: white Ke1, Qd1, Ra1, Rh1, Bc1 (2200 material
without pawns, so white's endgame weight is exactly 0) against a lone black
king on b8 (black's endgame weight is exactly 1); every floating-point
operation of the source is exact here. -/
def e8eval : Engine :=
  { e0 with
    board := (((((((List.replicate 64 Piece.Empty).set 60 Piece.King_W).set 59
      Piece.Queen_W).set 56 Piece.Rook_W).set 63 Piece.Rook_W).set 58
      Piece.Bishop_W).set 1 Piece.King_B),
    piece_locations := ((((((List.replicate 15 ([] : List Nat)).set 7 [60]).set 8
      [59]).set 9 [56, 63]).set 10 [58]).set 1 [1]),
    white_turn := true,
    en_passant_square := -1 }

/-- C5 test position: white pawn b2 (49), white knight a3 (40). -/
def e5pawn : Engine :=
  { e0 with
    board := ((List.replicate 64 Piece.Empty).set 49 Piece.Pawn_W).set 40
      Piece.Knight_W,
    en_passant_square := -1 }

/-- C1 test position: black pawns a7, b7, c7 (location list [8, 9, 10]) and a
white rook a6 about to capture the pawn on a7. -/
def e1cap : Engine :=
  { e0 with
    board := (((((List.replicate 64 Piece.Empty).set 8 Piece.Pawn_B).set 9
      Piece.Pawn_B).set 10 Piece.Pawn_B).set 16 Piece.Rook_W),
    piece_locations := ((List.replicate 15 ([] : List Nat)).set 6 [8, 9, 10]).set 9
      [16],
    white_turn := true,
    en_passant_square := -1 }

/-- A six-field FEN whose placement holds a single white king on a8. -/
def f10 : String := "K7/8/8/8/8/8/8/8 w - - 0 1"

/-- A six-field FEN whose placement field skips every square with digits. -/
def f10digits : String := "8/8/8/8/8/8/8/8 w - - 0 1"

/-- The engine after parsing `f10` twice from a fresh engine. -/
def e10twice : Engine :=
  ((e0.parse_fen f10).bind (fun e => e.parse_fen f10)).getD e0

/-- C3 counterexample: with black to move and `move_rep_count = 50`,
`check_for_draw` returns `true` — the fifty-move test of the source runs
before the black-turn early return, so the claim that `check_for_draw` is
always `false` on black's turn is wrong. -/
theorem c3_fifty_move_on_black_turn_counterexample :
    ({ e0 with white_turn := false, move_rep_count := 50 } : Engine).check_for_draw
      = true := by
  decide

/-- C3 amended: when it is black's turn, `check_for_draw` returns `true`
exactly when the fifty-move counter has reached 50; the insufficient-material
and threefold-repetition tests indeed only fire at the start of white's
turn. -/
theorem c3_black_turn_draw_iff_fifty (e : Engine) (h : e.white_turn = false) :
    e.check_for_draw = true ↔ 50 ≤ e.move_rep_count := by
  unfold Engine.check_for_draw
  rw [h]
  by_cases h50 : 50 ≤ e.move_rep_count
  · simp [h50]
  · simp [h50]

/-- C3 witness: the amended theorem applied at a concrete engine. -/
theorem c3_black_turn_draw_iff_fifty_witness :
    (({ e0 with white_turn := false, move_rep_count := 3 } : Engine).check_for_draw
      = true ↔ 50 ≤ ({ e0 with white_turn := false, move_rep_count := 3 } :
        Engine).move_rep_count) :=
  c3_black_turn_draw_iff_fifty { e0 with white_turn := false, move_rep_count := 3 }
    rfl


/-- C4 counterexample: `"K w - - 0 1"` is not a well-formed six-field FEN
(its placement has one rank, not eight), yet `parse_fen` processes it — it
only rejects strings whose space-split field count differs from six — and
mutates the board, placing the white king on square 0. -/
theorem c4_six_field_malformed_fen_mutates_counterexample :
    ¬ wellFormedFEN "K w - - 0 1" ∧
    (e0.parse_fen "K w - - 0 1").map (fun e => e.board.getD 0 Piece.Empty) =
      some Piece.King_W ∧
    e0.board.getD 0 Piece.Empty = Piece.Empty := by
  refine ⟨fun h => absurd h.2.1 (by decide), by decide, by decide⟩

/-- C4 amended: `parse_fen` returns without mutating any engine state
exactly for the inputs its guard rejects — strings whose space-split token
count is not six.  A six-field string that is malformed in any other way is
processed (and may mutate state or panic). -/
theorem c4_wrong_field_count_leaves_state (e : Engine) (fen : String)
    (h : (splitStr fen ' ').length ≠ 6) : e.parse_fen fen = some e := by
  unfold Engine.parse_fen
  simp [h]

/-- C4 witness: the amended theorem at a concrete two-field input. -/
theorem c4_wrong_field_count_leaves_state_witness :
    e0.parse_fen "a b" = some e0 :=
  c4_wrong_field_count_leaves_state e0 "a b" (by decide)

/-- C9: the claim is right and the code wrong — `Engine::new` initialises
`en_passant_square` to 0 (not −1, the no-capture value every other part of
the engine uses), and `parse_fen` of a FEN whose en-passant field is `-`
leaves the field untouched, so a freshly constructed engine still reports
square 0 after loading such a position. -/
theorem c9_en_passant_initialised_to_zero :
    e0.en_passant_square = 0 ∧
    (e0.parse_fen "k7/8/8/8/8/8/8/K7 w - - 0 1").map
      (fun e => e.en_passant_square) = some 0 := by
  exact ⟨rfl, by decide⟩

/-- C8: the claim is right and the code wrong — at `e8eval` (white weight
exactly 0, black weight exactly 1, black king on b8 whose mirrored
middle-game table value is 30) the source's `evaluate` yields 2015: the
black king term was scaled by `1 − white_weight = 1`.  Scaling it by black's
own weight, as the claim states, yields 2045 (the term scaled to 0).  Every
floating-point operation of the source is exact at this input, so the
rational model computes the same values the `f32` code does. -/
theorem c8_black_king_table_scaled_by_white_weight :
    e8eval.evaluate = 2015 ∧ e8eval.evaluate_spec_weights = 2045 ∧
    e8eval.evaluate ≠ e8eval.evaluate_spec_weights := by
  have h1 : e8eval.evaluate = 2015 := by
    norm_num [e8eval, e0, Engine.new, Engine.evaluate, Engine.count_material,
      Engine.evaluate_square_tables, Engine.evaluate_square_table,
      read_square_table_value, evaluate_end_game_position, truncQ, iabs,
      get_piece_value, Piece.from_num, Value.PAWN, Value.KNIGHT, Value.BISHOP,
      Value.ROOK, Value.QUEEN,
      Piece.Empty, Piece.King_B, Piece.Queen_B, Piece.Rook_B, Piece.Bishop_B,
      Piece.Knight_B, Piece.Pawn_B, Piece.King_W, Piece.Queen_W, Piece.Rook_W,
      Piece.Bishop_W, Piece.Knight_W, Piece.Pawn_W,
      PAWN_SQUARE_TABLE, ROOK_SQUARE_TABLE, KNIGHT_SQUARE_TABLE,
      BISHOP_SQUARE_TABLE, QUEEN_SQUARE_TABLE, KING_MIDDLE_GAME_SQUARE_TABLE,
      Int.toNat_ofNat, Int.toNat, List.range', List.foldl, List.getD,
      List.replicate, List.set]
  have h2 : e8eval.evaluate_spec_weights = 2045 := by
    norm_num [e8eval, e0, Engine.new, Engine.evaluate_spec_weights,
      Engine.count_material,
      Engine.evaluate_square_tables, Engine.evaluate_square_table,
      read_square_table_value, evaluate_end_game_position, truncQ, iabs,
      get_piece_value, Piece.from_num, Value.PAWN, Value.KNIGHT, Value.BISHOP,
      Value.ROOK, Value.QUEEN,
      Piece.Empty, Piece.King_B, Piece.Queen_B, Piece.Rook_B, Piece.Bishop_B,
      Piece.Knight_B, Piece.Pawn_B, Piece.King_W, Piece.Queen_W, Piece.Rook_W,
      Piece.Bishop_W, Piece.Knight_W, Piece.Pawn_W,
      PAWN_SQUARE_TABLE, ROOK_SQUARE_TABLE, KNIGHT_SQUARE_TABLE,
      BISHOP_SQUARE_TABLE, QUEEN_SQUARE_TABLE, KING_MIDDLE_GAME_SQUARE_TABLE,
      Int.toNat_ofNat, Int.toNat, List.range', List.foldl, List.getD,
      List.replicate, List.set]
  exact ⟨h1, h2, by rw [h1, h2]; decide⟩

/-- Once an iteration of the deepening loop has broken (flag set), every
further `iterStep` is the identity. -/
theorem iterStep_stopped (fuel : Nat) (acc : Engine × Int × Bool) (i : Nat)
    (h : acc.2.2 = true) : iterStep fuel acc i = acc := by
  unfold iterStep
  simp [h]

/-- Folding `iterStep` over any remaining depths keeps a broken accumulator. -/
theorem foldl_iterStep_stopped (fuel : Nat) (l : List Nat)
    (acc : Engine × Int × Bool) (h : acc.2.2 = true) :
    l.foldl (iterStep fuel) acc = acc := by
  induction l with
  | nil => rfl
  | cons x xs ih => rw [List.foldl_cons, iterStep_stopped fuel acc x h, ih]

/-- C7 counterexample: `e7neg` resolves every root search through a stored
exact evaluation of −100,000,000 (a mate-against score with
`|score| ≥ 99,999,999`), yet the deepening driver runs all 30 depths —
`find_best_move_iterative` breaks only on `score ≥ 99,999,999`, never on
large negative scores, so the claim that it stops for either sign is
false. -/
theorem c7_negative_mate_score_no_stop_counterexample :
    (e7neg.find_best_move_iterative 1).best_move.score = -100000000 ∧
    (e7neg.find_best_move_iterative 1).best_move.score ≤ -99999999 ∧
    (e7neg.find_best_move_iterative 1).depth_searched_last_turn = 30 := by
  refine ⟨by decide, by decide, by decide⟩

/-- C7 amended: the deepening driver stops early exactly on large positive
(mating) scores — after any iteration whose search commits a best score
`≥ 99,999,999` (and whose time check passes), the loop performs no further
iteration: the broken flag is set and the recorded depth stays at this
iteration's. -/
theorem c7_driver_stops_after_positive_mate_score (fuel : Nat) (e : Engine)
    (d : Int) (i : Nat) (l : List Nat)
    (htime : (e.find_best_move true (i : Int) 0 IntMin IntMax fuel).1.now_values
        (e.find_best_move true (i : Int) 0 IntMin IntMax fuel).1.now_index -
        (e.find_best_move true (i : Int) 0 IntMin IntMax fuel).1.search_start_time <
        (e.find_best_move true (i : Int) 0 IntMin IntMax fuel).1.search_max_time)
    (hscore : 99999999 ≤ (e.find_best_move true (i : Int) 0 IntMin IntMax
        fuel).1.best_move_this_iteration.score) :
    (l.foldl (iterStep fuel) (iterStep fuel (e, d, false) i)).2 =
      ((i : Int), true) := by
  have h1 : (iterStep fuel (e, d, false) i).2 = ((i : Int), true) := by
    unfold iterStep
    simp only [Bool.false_eq_true, if_false]
    rw [if_neg (by exact Nat.not_le.mpr htime)]
    rw [if_pos (by exact hscore)]
  rw [foldl_iterStep_stopped fuel l _ (by rw [h1])]
  exact h1

/-- C7 witness: the amended theorem at `e7pos`, whose stored evaluation is
+100,000,000. -/
theorem c7_driver_stops_after_positive_mate_score_witness :
    (([] : List Nat).foldl (iterStep 1) (iterStep 1 (e7pos, 0, false) 1)).2 =
      ((1 : Int), true) :=
  c7_driver_stops_after_positive_mate_score 1 e7pos 0 1 []
    (by decide) (by decide)

theorem listSet_of_length_le {α : Type} (l : List α) (i : Nat) (v : α)
    (h : l.length ≤ i) : l.set i v = l := by
  induction l generalizing i with
  | nil => rfl
  | cons a t ih =>
    cases i with
    | zero => simp at h
    | succ n => simpa using ih n (by simpa using h)

theorem listGetD_set_self {α : Type} (l : List α) (i : Nat) (v d : α)
    (h : i < l.length) : (l.set i v).getD i d = v := by
  induction l generalizing i with
  | nil => simp at h
  | cons a t ih =>
    cases i with
    | zero => rfl
    | succ n => simpa using ih n (by simpa using h)

theorem listGetD_set_ne {α : Type} (l : List α) (i j : Nat) (v d : α)
    (h : i ≠ j) : (l.set i v).getD j d = l.getD j d := by
  induction l generalizing i j with
  | nil => rfl
  | cons a t ih =>
    cases i with
    | zero => cases j with
      | zero => exact absurd rfl h
      | succ m => rfl
    | succ n => cases j with
      | zero => rfl
      | succ m => simpa using ih n m (fun hh => h (by rw [hh]))

theorem locPush_extends (locs : List (List Nat)) (p : Piece) (i : Nat)
    (c : Nat) :
    ∃ s, (locPush locs p i).getD c [] = locs.getD c [] ++ s := by
  unfold locPush
  by_cases hc : c = p
  · subst hc
    by_cases hp : c < locs.length
    · exact ⟨[i], listGetD_set_self locs c _ [] hp⟩
    · rw [listSet_of_length_le locs c _ (Nat.le_of_not_lt hp)]
      exact ⟨[], by simp⟩
  · rw [listGetD_set_ne locs p c _ [] (fun hh => hc hh.symm)]
    exact ⟨[], by simp⟩

theorem parseRankStep_extends (acc res : Engine × Nat) (t : Char)
    (h : parseRankStep acc t = some res) (c : Nat) :
    ∃ s, res.1.piece_locations.getD c [] =
      acc.1.piece_locations.getD c [] ++ s := by
  unfold parseRankStep at h
  by_cases hd : t.isDigit
  · simp [hd] at h
    subst h
    exact ⟨[], by simp⟩
  · simp [hd] at h
    by_cases hb : acc.2 < 64
    · simp [hb] at h
      subst h
      obtain ⟨s, hs⟩ := locPush_extends acc.1.piece_locations
        (fenMapEntry acc.1.fen_to_piece_map (String.mk [t])).1 acc.2 c
      exact ⟨s, hs⟩
    · simp [hb] at h

theorem foldChars_extends (cs : List Char) : ∀ (acc res : Engine × Nat),
    cs.foldlM parseRankStep acc = some res → ∀ c,
    ∃ s, res.1.piece_locations.getD c [] =
      acc.1.piece_locations.getD c [] ++ s := by
  induction cs with
  | nil => intro acc res h c; cases h; exact ⟨[], by simp⟩
  | cons t ts ih =>
    intro acc res h c
    rw [List.foldlM_cons] at h
    cases hstep : parseRankStep acc t with
    | none => rw [hstep] at h; cases h
    | some mid =>
      rw [hstep] at h
      obtain ⟨s1, hs1⟩ := parseRankStep_extends acc mid t hstep c
      obtain ⟨s2, hs2⟩ := ih mid res h c
      exact ⟨s1 ++ s2, by rw [hs2, hs1, List.append_assoc]⟩

theorem foldRanks_extends (rs : List String) : ∀ (acc res : Engine × Nat),
    rs.foldlM parseRank acc = some res → ∀ c,
    ∃ s, res.1.piece_locations.getD c [] =
      acc.1.piece_locations.getD c [] ++ s := by
  induction rs with
  | nil => intro acc res h c; cases h; exact ⟨[], by simp⟩
  | cons r ts ih =>
    intro acc res h c
    rw [List.foldlM_cons] at h
    cases hstep : parseRank acc r with
    | none => rw [hstep] at h; cases h
    | some mid =>
      rw [hstep] at h
      obtain ⟨s1, hs1⟩ := foldChars_extends r.data acc mid hstep c
      obtain ⟨s2, hs2⟩ := ih mid res h c
      exact ⟨s1 ++ s2, by rw [hs2, hs1, List.append_assoc]⟩

theorem gavm_piece_locations (e : Engine) (co : Bool) (a : List Nat) :
    (e.get_all_valid_moves co a).1.piece_locations = e.piece_locations := by
  unfold Engine.get_all_valid_moves
  by_cases h : a.length = 0 <;> simp [h]

theorem parseFenTail_piece_locations (e : Engine) (fields : List String)
    (e2 : Engine) (h : parseFenTail e fields = some e2) :
    e2.piece_locations = e.piece_locations := by
  unfold parseFenTail at h
  repeat' split at h
  all_goals first
  | exact Option.noConfusion h
  | (simp only [Option.some.injEq] at h; subst h; simp [gavm_piece_locations])

/-- C10: `parse_fen` never clears what is already there — for every engine
and input, each piece-location list after the call extends the prior list
(old entries first, parsed squares appended); concretely, parsing `f10`
twice from a fresh engine leaves the white-king list `[0, 0]`, violating
the board/location-list correspondence invariant (square 0 counted twice),
and a second parse whose placement field skips every square with digits
leaves the previously placed king on the board. -/
theorem c10_parse_fen_appends_to_locations :
    (∀ (e : Engine) (fen : String) (e2 : Engine), e.parse_fen fen = some e2 →
      ∀ c : Nat, ∃ s, e2.piece_locations.getD c [] =
        e.piece_locations.getD c [] ++ s) ∧
    e10twice.piece_locations.getD 7 [] = [0, 0] ∧
    e10twice.board.getD 0 Piece.Empty = Piece.King_W ∧
    ¬ locationsInvariant e10twice ∧
    ((e0.parse_fen f10).bind (fun e => e.parse_fen f10digits)).map
      (fun e => e.board.getD 0 Piece.Empty) = some Piece.King_W := by
  refine ⟨?_, by decide, by decide, ?_, by decide⟩
  · intro e fen e2 h c
    unfold Engine.parse_fen at h
    by_cases hf : (splitStr fen ' ').length ≠ 6
    · rw [if_pos hf] at h
      simp only [Option.some.injEq] at h
      subst h
      exact ⟨[], by simp⟩
    · rw [if_neg hf] at h
      dsimp only at h
      cases hp : (splitStr ((splitStr fen ' ').getD 0 "") '/').foldlM parseRank (e, 0) with
      | none => rw [hp] at h; exact Option.noConfusion h
      | some p =>
        rw [hp] at h
        obtain ⟨s1, hs1⟩ := foldRanks_extends _ (e, 0) p hp c
        rw [parseFenTail_piece_locations p.1 _ e2 h]
        exact ⟨s1, hs1⟩
  · intro hinv
    have h7 := hinv 7 (by decide) 0 (by decide) (by decide)
    exact absurd h7 (by decide)

/-- C5 counterexample: the white pawn on b2 (49) in attack-only mode
contributes only c3 (42): the edge-valid diagonally-forward square a3 (40)
is occupied by a white knight and is not produced, so attack-only pawn
diagonals are not generated regardless of occupancy. -/
theorem c5_pawn_attack_friendly_square_counterexample :
    (e5pawn.get_valid_squares 49 Piece.Pawn_W true false [] []) = ([], [42]) ∧
    e5pawn.board.getD 40 Piece.Empty = Piece.Knight_W ∧
    (40 ∉ ([42] : List Nat)) := by
  refine ⟨by decide, by decide, by decide⟩

/-- C5 amended: in attack-only generation a pawn contributes exactly its
edge-clipped diagonally-forward squares that are empty, hold an enemy piece,
or equal the en-passant square — friendly-occupied diagonals are excluded —
and never its push squares (the result appends only the two conditional
diagonal squares). -/
theorem c5_pawn_attack_only_squares (e : Engine) (i : Nat) (up : Bool) (pins arr : List Nat)
    (h8 : 8 ≤ i) (h55 : i ≤ 55) :
    (e.get_valid_squares i Piece.Pawn_W true up pins arr =
      (pins, arr ++
        (if (i : Int) % 8 < 7 ∧
            ((e.board.getD (i - 8 + 1) Piece.Empty = Piece.Empty ∨
              (1 ≤ e.board.getD (i - 8 + 1) Piece.Empty ∧
               e.board.getD (i - 8 + 1) Piece.Empty ≤ 6)) ∨
             ((i - 8 + 1 : Nat) : Int) = e.en_passant_square)
          then [i - 8 + 1] else []) ++
        (if 1 ≤ (i : Int) % 8 ∧
            ((e.board.getD (i - 8 - 1) Piece.Empty = Piece.Empty ∨
              (1 ≤ e.board.getD (i - 8 - 1) Piece.Empty ∧
               e.board.getD (i - 8 - 1) Piece.Empty ≤ 6)) ∨
             ((i - 8 - 1 : Nat) : Int) = e.en_passant_square)
          then [i - 8 - 1] else []))) ∧
    e.get_valid_squares i Piece.Pawn_B true up pins arr =
      (pins, arr ++
        (if (i : Int) % 8 < 7 ∧
            ((e.board.getD (i + 8 + 1) Piece.Empty = Piece.Empty ∨
              (7 ≤ e.board.getD (i + 8 + 1) Piece.Empty ∧
               e.board.getD (i + 8 + 1) Piece.Empty ≤ 12)) ∨
             ((i + 8 + 1 : Nat) : Int) = e.en_passant_square)
          then [i + 8 + 1] else []) ++
        (if 1 ≤ (i : Int) % 8 ∧
            ((e.board.getD (i + 8 - 1) Piece.Empty = Piece.Empty ∨
              (7 ≤ e.board.getD (i + 8 - 1) Piece.Empty ∧
               e.board.getD (i + 8 - 1) Piece.Empty ≤ 12)) ∨
             ((i + 8 - 1 : Nat) : Int) = e.en_passant_square)
          then [i + 8 - 1] else [])) := by
  constructor <;>
  · unfold Engine.get_valid_squares
    norm_num [Piece.Pawn_W, Piece.Rook_W, Piece.Rook_B, Piece.Queen_W, Piece.Queen_B,
      Piece.Bishop_W, Piece.Bishop_B, Piece.Pawn_B, Piece.Empty]
    split <;> split <;> simp_all [List.append_assoc]

/-- C5 witness: the amended theorem at the concrete position `e5pawn`. -/
theorem c5_pawn_attack_only_squares_witness :
    (8 ≤ 49 ∧ 49 ≤ 55) ∧
    e5pawn.get_valid_squares 49 Piece.Pawn_W true false [] [] = ([], [42]) ∧
    e5pawn.get_valid_squares 49 Piece.Pawn_B true false [] [] = ([], [58, 56]) :=
  ⟨⟨by decide, by decide⟩,
   ((c5_pawn_attack_only_squares e5pawn 49 false [] [] (by decide)
      (by decide)).1).trans (by decide),
   ((c5_pawn_attack_only_squares e5pawn 49 false [] [] (by decide)
      (by decide)).2).trans (by decide)⟩

set_option maxHeartbeats 2000000 in
/-- C6: when the search reaches its move loop with zero legal moves —
depth positive, no cancellation (`can_cancel = false`), no repetition
early return, a mate-distance window that stays open, and no transposition
hit — `find_best_move` returns `i32::MIN + ply` when the side to move is in
check (checkmate) and 0 otherwise (stalemate). -/
theorem c6_no_moves_mate_or_stalemate (e : Engine) (depth offset alpha beta : Int) (fuel : Nat)
    (hd : 0 < depth)
    (hrep : offset ≤ 0 ∨ e.repetition_history.contains e.board_hash = false)
    (hab : max alpha (IntMin + offset + 1) < min beta (IntMax - offset - 1))
    (htt : hmGet e.saved_evaluations e.board_hash = none)
    (hmoves : (searchMoveGen e false).2.2 = []) :
    (e.find_best_move false depth offset alpha beta (fuel + 1)).2 =
      if (searchMoveGen e false).1.is_in_check_attacked_squares
          (searchMoveGen e false).1.white_turn (searchMoveGen e false).2.1
        then IntMin + offset else 0 := by
  unfold Engine.find_best_move
  simp only [Bool.false_eq_true, if_false]
  rw [if_neg (by omega)]
  rw [if_neg (by
    rintro ⟨h1, h2⟩
    rcases hrep with h | h
    · omega
    · rw [h2] at h; cases h)]
  rw [if_neg (by exact not_le.mpr hab)]
  rw [htt]
  dsimp only
  rw [if_pos (by rw [hmoves]; rfl)]
  split <;> rfl

/-- C6 witness: the theorem at the concrete stalemate position `eStale`
(score 0) and the concrete checkmate position `eMate`
(score `i32::MIN + ply`). -/
theorem c6_no_moves_mate_or_stalemate_witness :
    (searchMoveGen eStale false).2.2 = [] ∧
    (eStale.find_best_move false 1 0 (-1000) 1000 10).2 = 0 ∧
    (searchMoveGen eMate false).2.2 = [] ∧
    (eMate.find_best_move false 1 3 (-1000) 1000 10).2 = IntMin + 3 :=
  ⟨by decide,
   (c6_no_moves_mate_or_stalemate eStale 1 0 (-1000) 1000 9 (by decide)
      (Or.inl (by decide)) (by decide) (by decide) (by decide)).trans (by decide),
   by decide,
   (c6_no_moves_mate_or_stalemate eMate 1 3 (-1000) 1000 9 (by decide)
      (Or.inr (by decide)) (by decide) (by decide) (by decide)).trans (by decide)⟩

end Bandersnatch
